import Mathlib

/-!
# syn-flood: packet construction and Internet checksum

A shallow embedding of `src/network_utils.c` and of the per-packet part of
`src/main.c`, together with the properties of the specification that can be
stated over it.

Conventions of the embedding

* Memory is byte addressed: a region is a function from byte offsets to byte
  values.  A C pointer is a region together with an offset into it.
* The target is little-endian (the bit-field order of `struct ipheader` and the
  odd-byte handling of the checksum both assume it): a native 16-bit load of the
  bytes `b0 b1` is `b0 + 256 * b1`, and `htons` swaps the two bytes.
* Unsigned machine arithmetic is arithmetic on `Nat` followed by an explicit
  reduction modulo `2 ^ 16` or `2 ^ 32`.
* `rand()` is a state-passing function over an explicit stream of values.
-/

namespace SynFlood

/-! ## Memory -/

/-- A byte-addressed memory region: offset to byte value. -/
abbrev Mem := Nat → Nat

/-- Every cell of the region holds a byte. -/
def IsBytes (mem : Mem) : Prop := ∀ a, mem a < 256

/-- Read of a `uint8_t` object. -/
def load8 (mem : Mem) (a : Nat) : Nat := mem a

/-- Write of a `uint8_t` object (the value is converted to 8 bits). -/
def store8 (mem : Mem) (a v : Nat) : Mem :=
  fun i => if i = a then v % 256 else mem i

/-- Native (little-endian) read of a `uint16_t` object. -/
def load16 (mem : Mem) (a : Nat) : Nat := load8 mem a + 256 * load8 mem (a + 1)

/-- Native (little-endian) write of a `uint16_t` object. -/
def store16 (mem : Mem) (a v : Nat) : Mem :=
  store8 (store8 mem a v) (a + 1) (v / 256)

/-- Native (little-endian) read of a `uint32_t` object. -/
def load32 (mem : Mem) (a : Nat) : Nat := load16 mem a + 65536 * load16 mem (a + 2)

/-- Native (little-endian) write of a `uint32_t` object. -/
def store32 (mem : Mem) (a v : Nat) : Mem :=
  store16 (store16 mem a v) (a + 2) (v / 65536)

/-- The libc `memset`: `n` bytes from offset `a` are set to `(unsigned char) c`. -/
def memset (mem : Mem) (a c n : Nat) : Mem :=
  fun i => if a ≤ i ∧ i < a + n then c % 256 else mem i

/-- The libc `memcpy` between two regions: `n` bytes of `src` from offset `s` are
copied to `dst` from offset `d`. -/
def memcpy (dst : Mem) (d : Nat) (src : Mem) (s n : Nat) : Mem :=
  fun i => if d ≤ i ∧ i < d + n then src (s + (i - d)) else dst i

/-- The region whose first bytes are those of the list (zero elsewhere). -/
def ofBytes (bs : List Nat) : Mem := fun i => bs.getD i 0

/-- An array of `uint16_t` objects laid out in memory from offset `a`. -/
def storeWords (mem : Mem) (a : Nat) : List Nat → Mem
  | [] => mem
  | w :: ws => storeWords (store16 mem a w) (a + 2) ws

/-- The libc `htons` on a little-endian host: the argument is converted to
`uint16_t` and its two bytes are swapped. -/
def htons (x : Nat) : Nat := (x % 256) * 256 + (x / 256) % 256

/-- The libc `ntohs` on a little-endian host. -/
def ntohs (x : Nat) : Nat := htons x

/-! ## `network_calculate_checksum` -/

/-- The summation loop of `network_calculate_checksum`
(`while (remaining_bytes > 1) { checksum_sum += *word_ptr++; remaining_bytes -= 2; }`),
from the state `(word_ptr, remaining_bytes, checksum_sum)` to the state at loop
exit.  The accumulator is a `uint32_t`. -/
def checksum_loop (mem : Mem) : Nat → Nat → Nat → Nat × Nat × Nat
  | word_ptr, remaining_bytes + 2, checksum_sum =>
      checksum_loop mem (word_ptr + 2) remaining_bytes
        ((checksum_sum + load16 mem word_ptr) % 2 ^ 32)
  | word_ptr, remaining_bytes, checksum_sum => (word_ptr, remaining_bytes, checksum_sum)

/-- The first fold statement, `checksum_sum = (checksum_sum >> 16) + (checksum_sum & 0xffff)`. -/
def fold_step (checksum_sum : Nat) : Nat :=
  (checksum_sum / 2 ^ 16 + checksum_sum % 2 ^ 16) % 2 ^ 32

/-- The second fold statement, `checksum_sum += (checksum_sum >> 16)`. -/
def fold_carry (checksum_sum : Nat) : Nat :=
  (checksum_sum + checksum_sum / 2 ^ 16) % 2 ^ 32

/-- The return expression `(uint16_t)(~checksum_sum)` for a 32-bit `checksum_sum`. -/
def complement16 (checksum_sum : Nat) : Nat :=
  (2 ^ 32 - 1 - checksum_sum % 2 ^ 32) % 2 ^ 16

/-- The value of `checksum_sum` after the loop and the odd-byte branch.
`odd_byte_temp` is a zero-initialised `uint16_t` whose first byte (in memory) is
overwritten with the trailing byte of the buffer.  A negative `length` runs
neither the loop nor the branch, exactly as `length = 0`. -/
def checksum_accumulate (mem : Mem) (buffer : Nat) (length : Int) : Nat :=
  let checksum_sum := 0
  let word_ptr := buffer
  let remaining_bytes := length.toNat
  let odd_byte_temp : Mem := store16 (fun _ => 0) 0 0
  let (word_ptr, remaining_bytes, checksum_sum) :=
    checksum_loop mem word_ptr remaining_bytes checksum_sum
  if remaining_bytes = 1 then
    let odd_byte_temp := store8 odd_byte_temp 0 (load8 mem word_ptr)
    (checksum_sum + load16 odd_byte_temp 0) % 2 ^ 32
  else checksum_sum

/-- The function `uint16_t network_calculate_checksum(uint16_t *buffer, int length)`. -/
def network_calculate_checksum (mem : Mem) (buffer : Nat) (length : Int) : Nat :=
  let checksum_sum := checksum_accumulate mem buffer length
  let checksum_sum := fold_step checksum_sum
  let checksum_sum := fold_carry checksum_sum
  complement16 checksum_sum

/-! ## Layout of the headers (`ip_header.h`, `tcp_header.h`, `network_utils.h`) -/

/-- The constant `PACKET_LEN`. -/
abbrev PACKET_LEN : Nat := 1500
/-- The constant `IPPROTO_TCP`. -/
abbrev IPPROTO_TCP : Nat := 6
/-- The flag `TH_SYN`. -/
abbrev TH_SYN : Nat := 0x02
/-- The size `sizeof(struct ipheader)`. -/
abbrev sizeof_ipheader : Nat := 20
/-- The size `sizeof(struct tcpheader)`. -/
abbrev sizeof_tcpheader : Nat := 20
/-- The size `sizeof(struct pseudo_tcp)`: 12 bytes of prefix, the TCP header and the payload. -/
abbrev sizeof_pseudo_tcp : Nat := 12 + sizeof_tcpheader + PACKET_LEN

/-- Byte offsets of the members of `struct ipheader`.  The bit-fields `iph_ihl`
and `iph_ver` share byte 0, `iph_flag` and `iph_offset` share the 16-bit unit at
offset 6. -/
abbrev off_iph_ihl_ver : Nat := 0
abbrev off_iph_tos : Nat := 1
abbrev off_iph_len : Nat := 2
abbrev off_iph_ident : Nat := 4
abbrev off_iph_flag_offset : Nat := 6
abbrev off_iph_ttl : Nat := 8
abbrev off_iph_protocol : Nat := 9
abbrev off_iph_chksum : Nat := 10
abbrev off_iph_sourceip : Nat := 12
abbrev off_iph_destip : Nat := 16

/-- Byte offsets of the members of `struct tcpheader`. -/
abbrev off_tcp_sport : Nat := 0
abbrev off_tcp_dport : Nat := 2
abbrev off_tcp_seq : Nat := 4
abbrev off_tcp_ack : Nat := 8
abbrev off_tcp_offx2 : Nat := 12
abbrev off_tcp_flags : Nat := 13
abbrev off_tcp_win : Nat := 14
abbrev off_tcp_sum : Nat := 16
abbrev off_tcp_urp : Nat := 18

/-- Byte offsets of the members of `struct pseudo_tcp`. -/
abbrev off_saddr : Nat := 0
abbrev off_daddr : Nat := 4
abbrev off_mbz : Nat := 8
abbrev off_ptcl : Nat := 9
abbrev off_tcpl : Nat := 10
abbrev off_tcp : Nat := 12

/-- Assignment to the bit-field `iph_ihl : 4` (low four bits of byte 0). -/
def set_iph_ihl (mem : Mem) (ip_header v : Nat) : Mem :=
  store8 mem (ip_header + off_iph_ihl_ver)
    (load8 mem (ip_header + off_iph_ihl_ver) / 16 * 16 + v % 16)

/-- Assignment to the bit-field `iph_ver : 4` (high four bits of byte 0). -/
def set_iph_ver (mem : Mem) (ip_header v : Nat) : Mem :=
  store8 mem (ip_header + off_iph_ihl_ver)
    (load8 mem (ip_header + off_iph_ihl_ver) % 16 + 16 * (v % 16))

/-- Assignment to the bit-field `iph_flag : 3` (low three bits of the unit at offset 6). -/
def set_iph_flag (mem : Mem) (ip_header v : Nat) : Mem :=
  store16 mem (ip_header + off_iph_flag_offset)
    (load16 mem (ip_header + off_iph_flag_offset) / 8 * 8 + v % 8)

/-- Assignment to the bit-field `iph_offset : 13` (high thirteen bits of the unit at offset 6). -/
def set_iph_offset (mem : Mem) (ip_header v : Nat) : Mem :=
  store16 mem (ip_header + off_iph_flag_offset)
    (load16 mem (ip_header + off_iph_flag_offset) % 8 + 8 * (v % 8192))

/-- Read of the bit-field `iph_ihl`. -/
def get_iph_ihl (mem : Mem) (ip_header : Nat) : Nat :=
  load8 mem (ip_header + off_iph_ihl_ver) % 16

/-- Read of the bit-field `iph_ver`. -/
def get_iph_ver (mem : Mem) (ip_header : Nat) : Nat :=
  load8 mem (ip_header + off_iph_ihl_ver) / 16 % 16

/-- Read of the bit-field `iph_flag`. -/
def get_iph_flag (mem : Mem) (ip_header : Nat) : Nat :=
  load16 mem (ip_header + off_iph_flag_offset) % 8

/-- Read of the bit-field `iph_offset`. -/
def get_iph_offset (mem : Mem) (ip_header : Nat) : Nat :=
  load16 mem (ip_header + off_iph_flag_offset) / 8 % 8192

/-- The macro `TH_OFF(th)`: `((th)->tcp_offx2 & 0xf0) >> 4`. -/
def TH_OFF (mem : Mem) (tcp_header : Nat) : Nat :=
  load8 mem (tcp_header + off_tcp_offx2) / 16 % 16

/-! ## The pseudo-random source -/

/-- State of the process-wide generator behind `rand()`: the values it is going
to return, and how many have been drawn. -/
structure RandState where
  stream : Nat → Nat
  pos : Nat

/-- One call of `rand()`: the next value and the advanced state. -/
def rand (rng : RandState) : Nat × RandState :=
  (rng.stream rng.pos, { rng with pos := rng.pos + 1 })

/-! ## `network_calculate_tcp_checksum` -/

/-- The function `uint16_t network_calculate_tcp_checksum(struct ipheader *ip_header)`.

`mem` is the region `ip_header` points into, `pseudo_header` is the storage of
the local variable before it is initialised.  `tcp_segment_length` is an `int`;
the `memcpy` is defined only when it is non-negative and the copy stays inside
the local `struct pseudo_tcp`, otherwise the call has no result. -/
def network_calculate_tcp_checksum (pseudo_header : Mem) (mem : Mem) (ip_header : Nat) :
    Option Nat :=
  let tcp_header := ip_header + sizeof_ipheader
  let tcp_segment_length : Int :=
    (ntohs (load16 mem (ip_header + off_iph_len)) : Int) - (sizeof_ipheader : Int)
  let pseudo_header := memset pseudo_header 0 0 sizeof_pseudo_tcp
  let pseudo_header := store32 pseudo_header off_saddr (load32 mem (ip_header + off_iph_sourceip))
  let pseudo_header := store32 pseudo_header off_daddr (load32 mem (ip_header + off_iph_destip))
  let pseudo_header := store8 pseudo_header off_mbz 0
  let pseudo_header := store8 pseudo_header off_ptcl IPPROTO_TCP
  let pseudo_header := store16 pseudo_header off_tcpl (htons (tcp_segment_length % 2 ^ 16).toNat)
  if 0 ≤ tcp_segment_length ∧ (off_tcp : Int) + tcp_segment_length ≤ (sizeof_pseudo_tcp : Int) then
    let pseudo_header := memcpy pseudo_header off_tcp mem tcp_header tcp_segment_length.toNat
    some (network_calculate_checksum pseudo_header 0 (tcp_segment_length + 12))
  else none

/-! ## Header initialisation -/

/-- The function `void network_initialize_tcp_header(struct tcpheader *tcp_header, uint16_t dest_port)`. -/
def network_initialize_tcp_header (mem : Mem) (tcp_header dest_port : Nat) (rng : RandState) :
    Mem × RandState :=
  let (r, rng) := rand rng
  let mem := store16 mem (tcp_header + off_tcp_sport) (r % 2 ^ 16)
  let mem := store16 mem (tcp_header + off_tcp_dport) (htons dest_port)
  let (r, rng) := rand rng
  let mem := store32 mem (tcp_header + off_tcp_seq) (r % 2 ^ 32)
  let mem := store8 mem (tcp_header + off_tcp_offx2) 0x50
  let mem := store8 mem (tcp_header + off_tcp_flags) TH_SYN
  let mem := store16 mem (tcp_header + off_tcp_win) (htons 20000)
  let mem := store16 mem (tcp_header + off_tcp_sum) 0
  let mem := store16 mem (tcp_header + off_tcp_urp) 0
  (mem, rng)

/-- The function `void network_initialize_ip_header(struct ipheader *ip_header, const char *dest_ip_str)`.
The libc function `inet_addr` is a parameter. -/
def network_initialize_ip_header (inet_addr : String → Nat) (mem : Mem) (ip_header : Nat)
    (dest_ip_str : String) (rng : RandState) : Mem × RandState :=
  let mem := set_iph_ver mem ip_header 4
  let mem := set_iph_ihl mem ip_header 5
  let mem := store8 mem (ip_header + off_iph_tos) 0
  let mem := store8 mem (ip_header + off_iph_ttl) 64
  let (r, rng) := rand rng
  let mem := store32 mem (ip_header + off_iph_sourceip) (r % 2 ^ 32)
  let mem := store32 mem (ip_header + off_iph_destip) (inet_addr dest_ip_str % 2 ^ 32)
  let mem := store8 mem (ip_header + off_iph_protocol) IPPROTO_TCP
  let mem := store16 mem (ip_header + off_iph_len) (htons (sizeof_ipheader + sizeof_tcpheader))
  let (r, rng) := rand rng
  let mem := store16 mem (ip_header + off_iph_ident) (htons (r % 2 ^ 16))
  let mem := set_iph_offset mem ip_header 0
  let mem := set_iph_flag mem ip_header 0
  let mem := store16 mem (ip_header + off_iph_chksum) 0
  (mem, rng)

/-! ## The per-packet sequence of `main` -/

/-- The construction part of one iteration of the transmission loop of `main`:
`memset`, the two initialisations, and the assignment of the TCP checksum.
`ip_header` is offset 0 of `packet_buffer` and `tcp_header` is offset
`sizeof(struct ipheader)`. -/
def main_build_packet (inet_addr : String → Nat) (pseudo_header : Mem) (target_ip : String)
    (target_port : Int) (packet_buffer : Mem) (rng : RandState) : Option (Mem × RandState) :=
  let ip_header := 0
  let tcp_header := 0 + sizeof_ipheader
  let packet_buffer := memset packet_buffer 0 0 PACKET_LEN
  let tcp_done :=
    network_initialize_tcp_header packet_buffer tcp_header (target_port % 2 ^ 16).toNat rng
  let ip_done :=
    network_initialize_ip_header inet_addr tcp_done.1 ip_header target_ip tcp_done.2
  (network_calculate_tcp_checksum pseudo_header ip_done.1 ip_header).map
    (fun tcp_sum => (store16 ip_done.1 (tcp_header + off_tcp_sum) tcp_sum, ip_done.2))

/-! ## `network_send_raw_ip_packet` -/

/-- The two exit statuses the program uses. -/
inductive ExitStatus where
  | EXIT_SUCCESS
  | EXIT_FAILURE
  deriving DecidableEq

/-- The calls `network_send_raw_ip_packet` makes on the system, with the arguments
that vary: `socket` stands for `socket(AF_INET, SOCK_RAW, IPPROTO_RAW)`,
`setsockopt fd optval` for `setsockopt(fd, IPPROTO_IP, IP_HDRINCL, &optval, sizeof(optval))`,
`sendto fd len sin_addr` for `sendto(fd, packet_header, len, 0, &destination_info, ...)`
with `destination_info.sin_family = AF_INET` and `destination_info.sin_addr = sin_addr`,
and `fprintf_stderr` carries the format string of the diagnostic. -/
inductive Syscall where
  | socket
  | setsockopt (fd : Int) (optval : Int)
  | sendto (fd : Int) (len : Nat) (sin_addr : Nat)
  | close (fd : Int)
  | fprintf_stderr (format : String)
  deriving DecidableEq

/-- How a call ends: it returns to its caller, or the process exits with a status. -/
inductive Termination where
  | returned
  | exited (status : ExitStatus)
  deriving DecidableEq

/-- What the system answers to the three calls that can fail: the return values of
`socket`, `setsockopt` and `sendto` (negative on failure). -/
structure Kernel where
  socket_result : Int
  setsockopt_result : Int
  sendto_result : Int

/-- The call is a `close`. -/
def Syscall.isClose : Syscall → Bool
  | .close _ => true
  | _ => false

/-- The call is a `sendto`. -/
def Syscall.isSendto : Syscall → Bool
  | .sendto _ _ _ => true
  | _ => false

/-- The call is a `setsockopt`. -/
def Syscall.isSetsockopt : Syscall → Bool
  | .setsockopt _ _ => true
  | _ => false

/-- The function `void network_send_raw_ip_packet(struct ipheader *packet_header)`:
the calls it makes, in order, and how it ends. -/
def network_send_raw_ip_packet (kernel : Kernel) (mem : Mem) (packet_header : Nat) :
    List Syscall × Termination :=
  let socket_opt_enable : Int := 1
  let calls := [Syscall.socket]
  let raw_socket := kernel.socket_result
  if raw_socket < 0 then
    let calls := calls ++ [Syscall.fprintf_stderr "[ERROR] Raw socket creation failed: %s\n"]
    (calls, Termination.exited ExitStatus.EXIT_FAILURE)
  else
    let calls := calls ++ [Syscall.setsockopt raw_socket socket_opt_enable]
    if kernel.setsockopt_result < 0 then
      let calls := calls ++ [Syscall.fprintf_stderr "[ERROR] Socket option setting failed: %s\n"]
      let calls := calls ++ [Syscall.close raw_socket]
      (calls, Termination.exited ExitStatus.EXIT_FAILURE)
    else
      let sin_addr := load32 mem (packet_header + off_iph_destip)
      let calls := calls ++
        [Syscall.sendto raw_socket (ntohs (load16 mem (packet_header + off_iph_len))) sin_addr]
      let bytes_sent := kernel.sendto_result
      if bytes_sent < 0 then
        let calls := calls ++ [Syscall.fprintf_stderr "[ERROR] Packet transmission failed: %s\n"]
        let calls := calls ++ [Syscall.close raw_socket]
        (calls, Termination.exited ExitStatus.EXIT_FAILURE)
      else
        let calls := calls ++ [Syscall.close raw_socket]
        (calls, Termination.returned)

/-! ## `main` -/

/-- Where `main` stands after the statements that precede the transmission
loop: the process has exited, or the loop is entered with these values of
`target_ip`, `target_port` and `packet_delay_ms`. -/
inductive MainStart where
  | exited (status : ExitStatus)
  | loop (target_ip : String) (target_port : Int) (packet_delay_ms : Int)

/-- The function `void display_usage(const char *program_name)`: it prints the
usage text and ends the process with `exit(EXIT_FAILURE)`. -/
def display_usage : ExitStatus := ExitStatus.EXIT_FAILURE

/-- The function `int validate_ip_address(const char *ip_str)`:
`inet_pton(AF_INET, ip_str, &addr) == 1`.  The libc function is a parameter. -/
def validate_ip_address (inet_pton : String → Int) (ip_str : String) : Int :=
  if inet_pton ip_str = 1 then 1 else 0

/-- The statements of `main` up to the transmission loop: the check of `argc`,
the parsing with `atoi` (a parameter) and the three validations, in the order of
the source. -/
def main_arguments (atoi : String → Int) (inet_pton : String → Int) (argc : Int)
    (argv : Nat → String) : MainStart :=
  if argc < 3 ∨ argc > 4 then MainStart.exited display_usage
  else
    let target_ip := argv 1
    let target_port := atoi (argv 2)
    let packet_delay_ms : Int := if argc = 4 then atoi (argv 3) else 0
    if argc = 4 ∧ packet_delay_ms < 0 then MainStart.exited ExitStatus.EXIT_FAILURE
    else if validate_ip_address inet_pton target_ip = 0 then
      MainStart.exited ExitStatus.EXIT_FAILURE
    else if target_port ≤ 0 ∨ target_port > 65535 then
      MainStart.exited ExitStatus.EXIT_FAILURE
    else MainStart.loop target_ip target_port packet_delay_ms

/-- What one iteration of the transmission loop finds around it: the answers of
the system to `network_send_raw_ip_packet`, and the content of the stack where
`network_calculate_tcp_checksum` places its local `pseudo_header`. -/
structure LoopStep where
  kernel : Kernel
  pseudo_header : Mem

/-- What `main` has done when the process ends: the packets it constructed, the
calls `network_send_raw_ip_packet` made, and the exit status (`none` when a
packet construction had no defined result). -/
structure MainRun where
  built : List Mem
  calls : List Syscall
  status : Option ExitStatus

/-- The transmission loop of `main`, `while (program_running) { ... }`, followed
by `return EXIT_SUCCESS`.  The list holds one entry for each iteration that finds
`program_running` set; the statistics output and `usleep` do not touch the
packet and are left out.  An iteration whose `network_send_raw_ip_packet` exits
ends the process. -/
def main_loop (inet_addr : String → Nat) (target_ip : String) (target_port : Int) :
    List LoopStep → Mem → RandState → MainRun
  | [], _, _ => { built := [], calls := [], status := some ExitStatus.EXIT_SUCCESS }
  | step :: steps, packet_buffer, rng =>
    ((main_build_packet inet_addr step.pseudo_header target_ip target_port packet_buffer rng).map
      (fun built =>
        let sent := network_send_raw_ip_packet step.kernel built.1 0
        match sent.2 with
        | Termination.exited status =>
          { built := [built.1], calls := sent.1, status := some status }
        | Termination.returned =>
          let run := main_loop inet_addr target_ip target_port steps built.1 built.2
          { built := built.1 :: run.built, calls := sent.1 ++ run.calls,
            status := run.status })).getD
      { built := [], calls := [], status := none }

/-- The function `int main(int argc, char *argv[])`.  `packet_buffer` is the
content of the local array before the loop and `rng` the state of the
pseudo-random source after `srand(time(NULL))`. -/
def main (atoi : String → Int) (inet_pton : String → Int) (inet_addr : String → Nat)
    (argc : Int) (argv : Nat → String) (steps : List LoopStep) (packet_buffer : Mem)
    (rng : RandState) : MainRun :=
  match main_arguments atoi inet_pton argc argv with
  | MainStart.exited status => { built := [], calls := [], status := some status }
  | MainStart.loop target_ip target_port _ =>
    main_loop inet_addr target_ip target_port steps packet_buffer rng

/-! ## Specification-side definitions -/

/-- The exact (unbounded) sum of the first `k` native 16-bit words from offset `buffer`. -/
def wordSum (mem : Mem) (buffer : Nat) : Nat → Nat
  | 0 => 0
  | k + 1 => wordSum mem buffer k + load16 mem (buffer + 2 * k)

/-- The spec's folding rule: `sum = (sum >> 16) + (sum & 0xFFFF)`, repeated until
no carry remains above the low 16 bits. -/
def fold_until_no_carry (sum : Nat) : Nat :=
  if sum / 2 ^ 16 = 0 then sum else fold_until_no_carry (sum / 2 ^ 16 + sum % 2 ^ 16)
termination_by sum
decreasing_by omega

/-- The exact (unbounded) sum the spec prescribes for a buffer of `n` bytes: the
full 16-bit words, then an odd trailing byte as a word of its own value. -/
def exactSum (mem : Mem) (buffer n : Nat) : Nat :=
  wordSum mem buffer (n / 2) + (if n % 2 = 1 then load8 mem (buffer + 2 * (n / 2)) else 0)

/-- The pseudo-header byte sequence as the spec words it, for a packet whose IP
total length is `L`: the 4 source-address bytes, the 4 destination-address
bytes, a zero byte, the protocol byte 6, the segment length `L - 20` in network
byte order, then the `L - 20` bytes that follow the 20-byte IP header. -/
def pseudo_header_bytes (mem : Mem) (ip_header L : Nat) : List Nat :=
  [load8 mem (ip_header + 12), load8 mem (ip_header + 13),
   load8 mem (ip_header + 14), load8 mem (ip_header + 15),
   load8 mem (ip_header + 16), load8 mem (ip_header + 17),
   load8 mem (ip_header + 18), load8 mem (ip_header + 19),
   0, 6, (L - 20) / 256, (L - 20) % 256]
  ++ (List.range (L - 20)).map (fun i => load8 mem (ip_header + 20 + i))

/-- The content of the local variable `pseudo_header` of
`network_calculate_tcp_checksum` at the call of `network_calculate_checksum`,
for a segment of `seg` bytes. -/
def pseudo_header_filled (pseudo_header mem : Mem) (ip_header seg : Nat) : Mem :=
  memcpy
    (store16 (store8 (store8
      (store32
        (store32 (memset pseudo_header 0 0 sizeof_pseudo_tcp) off_saddr
          (load32 mem (ip_header + off_iph_sourceip)))
        off_daddr (load32 mem (ip_header + off_iph_destip)))
      off_mbz 0) off_ptcl IPPROTO_TCP) off_tcpl (htons seg))
    off_tcp mem (ip_header + sizeof_ipheader) seg

/-- The 12 leading bytes of the pseudo-header, written over zeroed storage. -/
def pseudo_header_fields (saddr daddr seg : Nat) : Mem :=
  store16 (store8 (store8 (store32 (store32 (fun _ => 0) off_saddr saddr) off_daddr daddr)
    off_mbz 0) off_ptcl IPPROTO_TCP) off_tcpl (htons seg)

/-- The sum of the first `k` 16-bit words from offset `buffer`, each read in
network byte order (big-endian). -/
def wordSumBE (mem : Mem) (buffer : Nat) : Nat → Nat
  | 0 => 0
  | k + 1 => wordSumBE mem buffer k + (256 * load8 mem (buffer + 2 * k) + load8 mem (buffer + 2 * k + 1))

/-- The sum of the RFC 1071 reference for a buffer of `n` bytes: the buffer read
as big-endian 16-bit words, an odd trailing byte padded on the right with a zero
byte. -/
def rfc1071_sum (mem : Mem) (buffer n : Nat) : Nat :=
  wordSumBE mem buffer (n / 2)
    + (if n % 2 = 1 then 256 * load8 mem (buffer + 2 * (n / 2)) + 0 else 0)

/-- The reference Internet checksum of RFC 1071: the one's complement of the
one's-complement sum (the sum with its carries folded back in). -/
def rfc1071_checksum (mem : Mem) (buffer n : Nat) : Nat :=
  0xFFFF - fold_until_no_carry (rfc1071_sum mem buffer n)

/-! ## Lemmas on memory -/

theorem load16_store16_same (mem : Mem) (a v : Nat) :
    load16 (store16 mem a v) a = v % 65536 := by
  simp only [load16, load8, store16, store8]
  simp
  omega

theorem load16_store16_other (mem : Mem) (a b v : Nat) (h : a + 2 ≤ b ∨ b + 2 ≤ a) :
    load16 (store16 mem a v) b = load16 mem b := by
  simp only [load16, load8, store16, store8]
  have h1 : b ≠ a := by omega
  have h2 : b ≠ a + 1 := by omega
  have h3 : b + 1 ≠ a := by omega
  have h4 : b + 1 ≠ a + 1 := by omega
  simp [h1, h2, h3, h4]

theorem htons_low_byte (x : Nat) : htons x % 256 = x / 256 % 256 := by
  unfold htons
  have hb : x / 256 % 256 < 256 := Nat.mod_lt _ (by norm_num)
  generalize x % 256 = a
  generalize x / 256 % 256 = b at hb ⊢
  omega

theorem htons_high_byte (x : Nat) : htons x / 256 % 256 = x % 256 := by
  unfold htons
  have hb : x / 256 % 256 < 256 := Nat.mod_lt _ (by norm_num)
  have ha : x % 256 < 256 := Nat.mod_lt _ (by norm_num)
  generalize x % 256 = a at ha ⊢
  generalize x / 256 % 256 = b at hb ⊢
  omega

theorem htons_lt (x : Nat) : htons x < 65536 := by
  unfold htons
  have hb : x / 256 % 256 < 256 := Nat.mod_lt _ (by norm_num)
  have ha : x % 256 < 256 := Nat.mod_lt _ (by norm_num)
  omega

theorem ntohs_htons (x : Nat) (hx : x < 65536) : ntohs (htons x) = x := by
  unfold ntohs
  have h1 := htons_low_byte x
  have h2 := htons_high_byte x
  have e : htons (htons x) = htons x % 256 * 256 + htons x / 256 % 256 := rfl
  rw [e, h1, h2]
  omega

/-! ## Lemmas on the summation loop -/

theorem wordSum_front (mem : Mem) (p : Nat) :
    ∀ k, wordSum mem p (k + 1) = load16 mem p + wordSum mem (p + 2) k := by
  intro k
  induction k with
  | zero => simp [wordSum]
  | succ k ih =>
    rw [wordSum, ih, wordSum]
    have : p + 2 + 2 * k = p + 2 * (k + 1) := by ring
    rw [this]
    ring

theorem checksum_loop_eq (mem : Mem) :
    ∀ (k r p acc : Nat), r < 2 → acc < 2 ^ 32 →
      checksum_loop mem p (2 * k + r) acc = (p + 2 * k, r, (acc + wordSum mem p k) % 2 ^ 32) := by
  intro k
  induction k with
  | zero =>
    intro r p acc hr hacc
    interval_cases r <;> simp [checksum_loop, wordSum] <;> omega
  | succ k ih =>
    intro r p acc hr hacc
    have h2 : 2 * (k + 1) + r = (2 * k + r) + 2 := by ring
    rw [h2, checksum_loop, ih r (p + 2) _ hr (Nat.mod_lt _ (by norm_num)), wordSum_front]
    have h3 : p + 2 + 2 * k = p + 2 * (k + 1) := by ring
    rw [h3]
    congr 2
    omega

theorem checksum_accumulate_eq (mem : Mem) (buffer k r : Nat) (hr : r < 2) :
    checksum_accumulate mem buffer ((2 * k + r : Nat) : Int)
      = (wordSum mem buffer k + r * (load8 mem (buffer + 2 * k) % 256)) % 2 ^ 32 := by
  simp only [checksum_accumulate, Int.toNat_ofNat]
  rw [checksum_loop_eq mem k r buffer 0 hr (by norm_num)]
  interval_cases r
  · simp
  · simp [load16, load8, store16, store8]

theorem checksum_accumulate_lt (mem : Mem) (buffer : Nat) (n : Nat) :
    checksum_accumulate mem buffer (n : Int) < 2 ^ 32 := by
  have h := checksum_accumulate_eq mem buffer (n / 2) (n % 2) (Nat.mod_lt _ (by norm_num))
  rw [Nat.div_add_mod] at h
  rw [h]
  exact Nat.mod_lt _ (by norm_num)

/-- Replacing the `j`-th word of a buffer changes the exact word sum by the
difference of the two words. -/
theorem wordSum_store16 (mem : Mem) (p j v : Nat) :
    ∀ k, j < k →
      wordSum (store16 mem (p + 2 * j) v) p k + load16 mem (p + 2 * j)
        = wordSum mem p k + v % 65536 := by
  have hother : ∀ k, k ≤ j → wordSum (store16 mem (p + 2 * j) v) p k = wordSum mem p k := by
    intro k
    induction k with
    | zero => intro _; rfl
    | succ k ih =>
      intro hk
      rw [wordSum, wordSum, ih (by omega), load16_store16_other _ _ _ _ (by omega)]
  intro k
  induction k with
  | zero => intro h; omega
  | succ k ih =>
    intro hk
    rw [wordSum, wordSum]
    by_cases hjk : j = k
    · subst hjk
      rw [hother j (le_refl _), load16_store16_same]
      omega
    · have := ih (by omega)
      rw [load16_store16_other _ _ _ _ (by omega)]
      omega

/-! ## Lemmas on folding -/

theorem complement16_lt (s : Nat) : complement16 s < 65536 := by
  unfold complement16
  omega

/-- The value returned for a 32-bit accumulator `s`, in closed form: with
`t = (s >> 16) + (s & 0xffff)` it is `65535 - t` when `t` has no carry and
`131070 - t` when it has one. -/
theorem complement_fold_eq (s : Nat) (hs : s < 2 ^ 32) :
    complement16 (fold_carry (fold_step s))
      = if s / 65536 + s % 65536 < 65536 then 65535 - (s / 65536 + s % 65536)
        else 131070 - (s / 65536 + s % 65536) := by
  have hs' : s < 4294967296 := by norm_num at hs; exact hs
  have e1 : fold_step s = s / 65536 + s % 65536 := by
    unfold fold_step
    omega
  have ht : s / 65536 + s % 65536 ≤ 131070 := by omega
  rw [e1]
  generalize s / 65536 + s % 65536 = t at ht ⊢
  have e2 : fold_carry t = t + t / 65536 := by
    unfold fold_carry
    omega
  rw [e2]
  clear e1 e2
  unfold complement16
  split_ifs with hc
  · have h0 : t / 65536 = 0 := by omega
    have h1 : (t + 0) % 2 ^ 32 = t := by omega
    rw [h0, h1]
    omega
  · have h0 : t / 65536 = 1 := by omega
    have h1 : (t + 1) % 2 ^ 32 = t + 1 := by omega
    rw [h0, h1]
    omega

/-- An accumulator that is a positive multiple of 65535 folds to all ones. -/
theorem complement_fold_zero (x : Nat) (hx : x < 2 ^ 32) (hpos : 0 < x)
    (hmod : x % 65535 = 0) : complement16 (fold_carry (fold_step x)) = 0 := by
  rw [complement_fold_eq x hx]
  have hx' : x < 4294967296 := by norm_num at hx; exact hx
  split_ifs with ht <;> omega

/-- The arithmetic heart of the self-verification law: adding the complement of
the folded sum to the 32-bit accumulator makes the folded sum all ones. -/
theorem fold_complement_cancel (S : Nat) :
    complement16 (fold_carry (fold_step
      ((S + complement16 (fold_carry (fold_step (S % 2 ^ 32)))) % 2 ^ 32))) = 0 := by
  have hs : S % 2 ^ 32 < 2 ^ 32 := Nat.mod_lt _ (by norm_num)
  rw [complement_fold_eq _ hs]
  have hmodadd : ∀ c, (S + c) % 2 ^ 32 = (S % 2 ^ 32 + c) % 2 ^ 32 := by
    intro c; omega
  rw [hmodadd]
  have hs' : S % 2 ^ 32 < 4294967296 := by norm_num at hs; exact hs
  generalize S % 2 ^ 32 = s at hs hs' ⊢
  have key : ∀ c, c < 65536 → 0 < s + c → s + c < 4294967296 → (s + c) % 65535 = 0 →
      complement16 (fold_carry (fold_step ((s + c) % 2 ^ 32))) = 0 := by
    intro c _ hpos hlt hm
    have e : (s + c) % 2 ^ 32 = s + c := Nat.mod_eq_of_lt (by norm_num; exact hlt)
    rw [e]
    exact complement_fold_zero _ (by norm_num; exact hlt) hpos hm
  split_ifs with ht
  · exact key _ (by omega) (by omega) (by omega) (by omega)
  · exact key _ (by omega) (by omega) (by omega) (by omega)

/-- The closed form of the spec's repeated folding on a 32-bit value. -/
theorem fold_until_no_carry_eq (s : Nat) (hs : s < 2 ^ 32) :
    fold_until_no_carry s
      = if s / 65536 + s % 65536 < 65536 then s / 65536 + s % 65536
        else s / 65536 + s % 65536 - 65535 := by
  have hs' : s < 4294967296 := by norm_num at hs; exact hs
  have small : ∀ x, x < 65536 → fold_until_no_carry x = x := by
    intro x hx
    rw [fold_until_no_carry]
    have : x / 2 ^ 16 = 0 := by omega
    rw [if_pos this]
  by_cases h0 : s < 65536
  · rw [small s h0]
    have : s / 65536 = 0 := by omega
    split_ifs <;> omega
  · rw [fold_until_no_carry]
    have hne : ¬ s / 2 ^ 16 = 0 := by omega
    rw [if_neg hne]
    have e : s / 2 ^ 16 + s % 2 ^ 16 = s / 65536 + s % 65536 := by norm_num
    rw [e]
    have ht : s / 65536 + s % 65536 ≤ 131070 := by omega
    generalize s / 65536 + s % 65536 = t at ht ⊢
    split_ifs with hc
    · exact small t hc
    · rw [fold_until_no_carry]
      have hne2 : ¬ t / 2 ^ 16 = 0 := by omega
      rw [if_neg hne2, small _ (by omega)]
      omega

/-- The two fold statements of the code leave the closed form in the low 16 bits. -/
theorem fold_carry_low16 (s : Nat) (hs : s < 2 ^ 32) :
    fold_carry (fold_step s) % 2 ^ 16
      = if s / 65536 + s % 65536 < 65536 then s / 65536 + s % 65536
        else s / 65536 + s % 65536 - 65535 := by
  have hs' : s < 4294967296 := by norm_num at hs; exact hs
  have e1 : fold_step s = s / 65536 + s % 65536 := by
    unfold fold_step
    omega
  have ht : s / 65536 + s % 65536 ≤ 131070 := by omega
  rw [e1]
  generalize s / 65536 + s % 65536 = t at ht ⊢
  have e2 : fold_carry t = t + t / 65536 := by
    unfold fold_carry
    omega
  rw [e2]
  split_ifs with hc <;> omega

/-! ## Lemmas on `network_calculate_checksum` -/

/-- Filling a zero 16-bit field (word `j` of the buffer) with the checksum of
the buffer makes the checksum of the buffer zero; `2 * k + r` is the length. -/
theorem checksum_fill_zero_field (mem : Mem) (buffer k r j : Nat) (hr : r < 2) (hj : j < k)
    (hz : load16 mem (buffer + 2 * j) = 0) :
    network_calculate_checksum
      (store16 mem (buffer + 2 * j)
        (network_calculate_checksum mem buffer ((2 * k + r : Nat) : Int)))
      buffer ((2 * k + r : Nat) : Int) = 0 := by
  unfold network_calculate_checksum
  rw [checksum_accumulate_eq _ _ _ _ hr, checksum_accumulate_eq _ _ _ _ hr]
  generalize hc : complement16 (fold_carry (fold_step
    ((wordSum mem buffer k + r * (load8 mem (buffer + 2 * k) % 256)) % 2 ^ 32))) = c
  have hclt : c < 65536 := by rw [← hc]; exact complement16_lt _
  have hsum := wordSum_store16 mem buffer j c k hj
  rw [hz, Nat.mod_eq_of_lt hclt] at hsum
  have hbyte : load8 (store16 mem (buffer + 2 * j) c) (buffer + 2 * k)
      = load8 mem (buffer + 2 * k) := by
    simp only [load8, store16, store8]
    have h1 : buffer + 2 * k ≠ buffer + 2 * j := by omega
    have h2 : buffer + 2 * k ≠ buffer + 2 * j + 1 := by omega
    simp [h1, h2]
  rw [hbyte]
  have e : wordSum (store16 mem (buffer + 2 * j) c) buffer k
      = wordSum mem buffer k + c := by omega
  rw [e]
  have := fold_complement_cancel (wordSum mem buffer k + r * (load8 mem (buffer + 2 * k) % 256))
  rw [hc] at this
  have e2 : wordSum mem buffer k + c + r * (load8 mem (buffer + 2 * k) % 256)
      = wordSum mem buffer k + r * (load8 mem (buffer + 2 * k) % 256) + c := by ring
  rw [e2]
  exact this

theorem load16_lt (mem : Mem) (hb : IsBytes mem) (a : Nat) : load16 mem a ≤ 65535 := by
  have h1 := hb a
  have h2 := hb (a + 1)
  simp only [load16, load8]
  omega

theorem wordSum_le (mem : Mem) (hb : IsBytes mem) (p : Nat) :
    ∀ k, wordSum mem p k ≤ 65535 * k := by
  intro k
  induction k with
  | zero => simp [wordSum]
  | succ k ih =>
    rw [wordSum]
    have := load16_lt mem hb (p + 2 * k)
    omega

theorem checksum_accumulate_exact (mem : Mem) (hb : IsBytes mem) (buffer n : Nat) :
    checksum_accumulate mem buffer (n : Int) = exactSum mem buffer n % 2 ^ 32 := by
  have h := checksum_accumulate_eq mem buffer (n / 2) (n % 2) (Nat.mod_lt _ (by norm_num))
  rw [Nat.div_add_mod] at h
  rw [h, exactSum]
  have hbyte := hb (buffer + 2 * (n / 2))
  have e : load8 mem (buffer + 2 * (n / 2)) % 256 = load8 mem (buffer + 2 * (n / 2)) :=
    Nat.mod_eq_of_lt hbyte
  rw [e]
  rcases Nat.mod_two_eq_zero_or_one n with h0 | h1
  · simp [h0]
  · simp [h1]

theorem exactSum_le (mem : Mem) (hb : IsBytes mem) (buffer n : Nat) :
    exactSum mem buffer n ≤ 65535 * (n / 2) + 255 := by
  unfold exactSum
  have h1 := wordSum_le mem hb buffer (n / 2)
  have h2 := hb (buffer + 2 * (n / 2))
  simp only [load8]
  split_ifs <;> omega

theorem wordSum_congr (m1 m2 : Mem) (b1 b2 : Nat) :
    ∀ k, (∀ i, i < 2 * k → m1 (b1 + i) = m2 (b2 + i)) → wordSum m1 b1 k = wordSum m2 b2 k := by
  intro k
  induction k with
  | zero => intro _; rfl
  | succ k ih =>
    intro h
    rw [wordSum, wordSum, ih (fun i hi => h i (by omega))]
    have h0 := h (2 * k) (by omega)
    have h1 := h (2 * k + 1) (by omega)
    simp only [load16, load8]
    rw [h0, Nat.add_assoc, Nat.add_assoc, h1]

/-- The checksum depends only on the `n` bytes of the buffer. -/
theorem checksum_congr (m1 m2 : Mem) (b1 b2 n : Nat)
    (h : ∀ i, i < n → m1 (b1 + i) = m2 (b2 + i)) :
    network_calculate_checksum m1 b1 (n : Int) = network_calculate_checksum m2 b2 (n : Int) := by
  have hr : n % 2 < 2 := Nat.mod_lt _ (by norm_num)
  have e1 := checksum_accumulate_eq m1 b1 (n / 2) (n % 2) hr
  have e2 := checksum_accumulate_eq m2 b2 (n / 2) (n % 2) hr
  rw [Nat.div_add_mod] at e1 e2
  unfold network_calculate_checksum
  rw [e1, e2, wordSum_congr m1 m2 b1 b2 (n / 2) (fun i hi => h i (by omega))]
  rcases Nat.mod_two_eq_zero_or_one n with h0 | h1
  · simp [h0]
  · have hb := h (2 * (n / 2)) (by omega)
    simp only [load8]
    rw [hb]

/-! ## Lemmas on `network_calculate_tcp_checksum` -/

theorem tcp_checksum_unfold (pseudo_header mem : Mem) (ip_header seg : Nat)
    (hL : ntohs (load16 mem (ip_header + off_iph_len)) = seg + 20) (hseg : seg ≤ 1520) :
    network_calculate_tcp_checksum pseudo_header mem ip_header
      = some (network_calculate_checksum (pseudo_header_filled pseudo_header mem ip_header seg)
          0 ((seg + 12 : Nat) : Int)) := by
  unfold network_calculate_tcp_checksum
  simp only [hL]
  have e1 : ((seg + 20 : Nat) : Int) - ((sizeof_ipheader : Nat) : Int) = (seg : Int) := by
    simp [sizeof_ipheader]
  rw [e1]
  have e2 : ((seg : Int) % 2 ^ 16).toNat = seg := by omega
  have e3 : (seg : Int).toNat = seg := by omega
  have e4 : (seg : Int) + 12 = ((seg + 12 : Nat) : Int) := by push_cast; ring
  have hg : 0 ≤ (seg : Int) ∧ ((off_tcp : Nat) : Int) + (seg : Int)
      ≤ ((sizeof_pseudo_tcp : Nat) : Int) := by
    simp only [off_tcp, sizeof_pseudo_tcp, sizeof_tcpheader, PACKET_LEN]
    omega
  rw [if_pos hg, e2, e3, e4]
  rfl

theorem pseudo_header_filled_apply (pseudo_header mem : Mem) (ip_header seg i : Nat)
    (hi : i < seg + 12) :
    pseudo_header_filled pseudo_header mem ip_header seg i
      = if 12 ≤ i then mem (ip_header + 20 + (i - 12))
        else pseudo_header_fields (load32 mem (ip_header + off_iph_sourceip))
          (load32 mem (ip_header + off_iph_destip)) seg i := by
  unfold pseudo_header_filled memcpy
  by_cases h12 : 12 ≤ i
  · have hc : off_tcp ≤ i ∧ i < off_tcp + seg := by
      simp only [off_tcp]
      omega
    rw [if_pos hc, if_pos h12]
  · have hc : ¬ (off_tcp ≤ i ∧ i < off_tcp + seg) := by
      simp only [off_tcp]
      omega
    rw [if_neg hc, if_neg h12]
    have hlt : i < 1532 := by omega
    simp [pseudo_header_fields, store32, store16, store8, memset, hlt, sizeof_pseudo_tcp,
      sizeof_tcpheader, PACKET_LEN]

/-- Writing the TCP checksum of a packet whose `tcp_sum` field is zero into
that field makes the TCP checksum of the packet zero.  `seg` is the segment
length; the field must lie inside the segment. -/
theorem tcp_checksum_fill (ps ps' mem : Mem) (ip_header seg : Nat)
    (hL : ntohs (load16 mem (ip_header + off_iph_len)) = seg + 20)
    (h18 : 18 ≤ seg) (hseg : seg ≤ 1520)
    (hz : load16 mem (ip_header + sizeof_ipheader + off_tcp_sum) = 0) :
    ∃ c, network_calculate_tcp_checksum ps mem ip_header = some c ∧
      network_calculate_tcp_checksum ps'
        (store16 mem (ip_header + sizeof_ipheader + off_tcp_sum) c) ip_header = some 0 := by
  obtain ⟨k, r, hr, hkr⟩ : ∃ k r, r < 2 ∧ seg + 12 = 2 * k + r :=
    ⟨(seg + 12) / 2, (seg + 12) % 2, Nat.mod_lt _ (by norm_num), by omega⟩
  obtain ⟨c, hc⟩ : ∃ c, c = network_calculate_checksum
      (pseudo_header_filled ps mem ip_header seg) 0 ((2 * k + r : Nat) : Int) := ⟨_, rfl⟩
  refine ⟨c, by rw [hc, ← hkr]; exact tcp_checksum_unfold ps mem ip_header seg hL hseg, ?_⟩
  have hframe : ∀ a, a ≠ ip_header + 36 → a ≠ ip_header + 37 →
      store16 mem (ip_header + sizeof_ipheader + off_tcp_sum) c a = mem a := by
    intro a h1 h2
    simp only [store16, store8, sizeof_ipheader, off_tcp_sum]
    rw [if_neg (by omega), if_neg (by omega)]
  have hL' : ntohs (load16 (store16 mem (ip_header + sizeof_ipheader + off_tcp_sum) c)
      (ip_header + off_iph_len)) = seg + 20 := by
    rw [← hL]
    simp only [load16, load8, off_iph_len]
    rw [hframe _ (by omega) (by omega), hframe _ (by omega) (by omega)]
  have hsa : load32 (store16 mem (ip_header + sizeof_ipheader + off_tcp_sum) c)
      (ip_header + off_iph_sourceip) = load32 mem (ip_header + off_iph_sourceip) := by
    simp only [load32, load16, load8, off_iph_sourceip]
    rw [hframe _ (by omega) (by omega), hframe _ (by omega) (by omega),
      hframe _ (by omega) (by omega), hframe _ (by omega) (by omega)]
  have hda : load32 (store16 mem (ip_header + sizeof_ipheader + off_tcp_sum) c)
      (ip_header + off_iph_destip) = load32 mem (ip_header + off_iph_destip) := by
    simp only [load32, load16, load8, off_iph_destip]
    rw [hframe _ (by omega) (by omega), hframe _ (by omega) (by omega),
      hframe _ (by omega) (by omega), hframe _ (by omega) (by omega)]
  have e36 : ip_header + sizeof_ipheader + off_tcp_sum = ip_header + 36 := by
    simp only [sizeof_ipheader, off_tcp_sum]
  have hz0 : mem (ip_header + 36) = 0 ∧ mem (ip_header + 37) = 0 := by
    rw [e36] at hz
    simp only [load16, load8] at hz
    have e : ip_header + 36 + 1 = ip_header + 37 := by omega
    rw [e] at hz
    omega
  have hz28 : load16 (pseudo_header_filled ps mem ip_header seg) (0 + 2 * 14) = 0 := by
    show load16 (pseudo_header_filled ps mem ip_header seg) 28 = 0
    simp only [load16, load8]
    rw [pseudo_header_filled_apply ps mem ip_header seg 28 (by omega),
      pseudo_header_filled_apply ps mem ip_header seg (28 + 1) (by omega),
      if_pos (by omega), if_pos (by omega)]
    have e1 : ip_header + 20 + (28 - 12) = ip_header + 36 := by omega
    have e2 : ip_header + 20 + (28 + 1 - 12) = ip_header + 37 := by omega
    rw [e1, e2, hz0.1, hz0.2]
  have hagree : ∀ i, i < seg + 12 →
      pseudo_header_filled ps' (store16 mem (ip_header + sizeof_ipheader + off_tcp_sum) c)
        ip_header seg (0 + i)
      = store16 (pseudo_header_filled ps mem ip_header seg) (0 + 2 * 14) c (0 + i) := by
    intro i hi
    rw [Nat.zero_add, pseudo_header_filled_apply _ _ _ _ _ hi, hsa, hda]
    by_cases h28 : i = 28
    · subst h28
      simp [store16, store8, sizeof_ipheader, off_tcp_sum]
    · by_cases h29 : i = 29
      · subst h29
        simp [store16, store8, sizeof_ipheader, off_tcp_sum]
      · have hrhs : store16 (pseudo_header_filled ps mem ip_header seg) (0 + 2 * 14) c i
            = pseudo_header_filled ps mem ip_header seg i := by
          simp only [store16, store8]
          rw [if_neg (by omega), if_neg (by omega)]
        rw [hrhs, pseudo_header_filled_apply _ _ _ _ _ hi]
        split_ifs with h12
        · exact hframe _ (by omega) (by omega)
        · rfl
  rw [tcp_checksum_unfold ps' _ ip_header seg hL' hseg]
  congr 1
  rw [checksum_congr _ _ 0 0 (seg + 12) hagree, hc, hkr]
  exact checksum_fill_zero_field _ 0 k r 14 hr (by omega) hz28

/-! ## The checksum engine: claims C1, C4, C5, C6, C10 -/

/-- C1 (self-verification law).  For every buffer of even length and every
16-bit field at an even byte offset inside it: zero the field, compute the
checksum `c` of the buffer, store `c` into the field as a native 16-bit word;
then the checksum of the completed buffer is 0. -/
theorem checksum_self_verification (mem : Mem) (buffer : Nat) (length : Int) (field : Nat)
    (hlen : length % 2 = 0) (hfield : field % 2 = 0) (hin : (field : Int) + 2 ≤ length) :
    network_calculate_checksum
      (store16 (store16 mem (buffer + field) 0) (buffer + field)
        (network_calculate_checksum (store16 mem (buffer + field) 0) buffer length))
      buffer length = 0 := by
  obtain ⟨k, hk⟩ : ∃ k : Nat, length = ((2 * k + 0 : Nat) : Int) := ⟨length.toNat / 2, by omega⟩
  obtain ⟨j, hj⟩ : ∃ j : Nat, field = 2 * j := ⟨field / 2, by omega⟩
  subst hk hj
  exact checksum_fill_zero_field _ buffer k 0 j (by norm_num) (by omega)
    (by rw [load16_store16_same])

/-- Instance of C1: the worked ten-word buffer, checksum field at byte offset 10. -/
theorem checksum_self_verification_witness :
    ((20 : Int) % 2 = 0 ∧ 10 % 2 = 0 ∧ ((10 : Nat) : Int) + 2 ≤ 20) ∧
    network_calculate_checksum
      (store16 (store16 (storeWords (fun _ => 0) 0
          [0x4500, 0x0073, 0x0000, 0x4000, 0x4011, 0xFFFF, 0xc0a8, 0x0001, 0xc0a8, 0x00c7])
          (0 + 10) 0) (0 + 10)
        (network_calculate_checksum (store16 (storeWords (fun _ => 0) 0
          [0x4500, 0x0073, 0x0000, 0x4000, 0x4011, 0xFFFF, 0xc0a8, 0x0001, 0xc0a8, 0x00c7])
          (0 + 10) 0) 0 20))
      0 20 = 0 :=
  ⟨by decide, checksum_self_verification _ 0 20 10 (by decide) (by decide) (by decide)⟩

/-- C4 (carry folding).  For every buffer of at most 1532 bytes
(`sizeof(struct pseudo_tcp)`): the 32-bit accumulator holds the exact sum of the
16-bit words; the two fold statements of the code leave in the low 16 bits what
repeating `sum = (sum >> 16) + (sum & 0xFFFF)` until no carry remains gives; and
the function returns the 16-bit complement of that value. -/
theorem checksum_carry_folding (mem : Mem) (buffer : Nat) (length : Int)
    (hb : IsBytes mem) (hlen : length ≤ 1532) :
    checksum_accumulate mem buffer length = exactSum mem buffer length.toNat ∧
    fold_carry (fold_step (checksum_accumulate mem buffer length)) % 2 ^ 16
      = fold_until_no_carry (exactSum mem buffer length.toNat) ∧
    fold_until_no_carry (exactSum mem buffer length.toNat) / 2 ^ 16 = 0 ∧
    network_calculate_checksum mem buffer length
      = 0xFFFF - fold_until_no_carry (exactSum mem buffer length.toNat) := by
  have hcast : checksum_accumulate mem buffer length
      = checksum_accumulate mem buffer (length.toNat : Int) := by
    simp only [checksum_accumulate, Int.toNat_ofNat]
  have hn : length.toNat ≤ 1532 := by omega
  have hle := exactSum_le mem hb buffer length.toNat
  have hlt : exactSum mem buffer length.toNat < 2 ^ 32 := by
    norm_num
    omega
  have hacc : checksum_accumulate mem buffer length = exactSum mem buffer length.toNat := by
    rw [hcast, checksum_accumulate_exact mem hb, Nat.mod_eq_of_lt hlt]
  have hfold := fold_until_no_carry_eq _ hlt
  have hlow := fold_carry_low16 _ hlt
  have hret := complement_fold_eq _ hlt
  refine ⟨hacc, ?_, ?_, ?_⟩
  · rw [hacc, hlow, hfold]
  · rw [hfold]
    split_ifs <;> omega
  · unfold network_calculate_checksum
    rw [hacc, hret, hfold]
    split_ifs <;> omega

/-- Instance of C4: the worked ten-word buffer, 20 bytes. -/
theorem checksum_carry_folding_witness :
    (IsBytes (ofBytes [0x00, 0x45, 0x73, 0x00, 0x00, 0x00, 0x00, 0x40, 0x11, 0x40,
        0x00, 0x00, 0xa8, 0xc0, 0x01, 0x00, 0xa8, 0xc0, 0xc7, 0x00]) ∧ (20 : Int) ≤ 1532) ∧
    network_calculate_checksum (ofBytes [0x00, 0x45, 0x73, 0x00, 0x00, 0x00, 0x00, 0x40,
        0x11, 0x40, 0x00, 0x00, 0xa8, 0xc0, 0x01, 0x00, 0xa8, 0xc0, 0xc7, 0x00]) 0 20
      = 0xFFFF - fold_until_no_carry (exactSum (ofBytes [0x00, 0x45, 0x73, 0x00, 0x00, 0x00,
        0x00, 0x40, 0x11, 0x40, 0x00, 0x00, 0xa8, 0xc0, 0x01, 0x00, 0xa8, 0xc0, 0xc7, 0x00])
        0 (20 : Int).toNat) :=
  have hb : IsBytes (ofBytes [0x00, 0x45, 0x73, 0x00, 0x00, 0x00, 0x00, 0x40, 0x11, 0x40,
      0x00, 0x00, 0xa8, 0xc0, 0x01, 0x00, 0xa8, 0xc0, 0xc7, 0x00]) := by
    intro a
    simp only [ofBytes]
    rcases Nat.lt_or_ge a 20 with h | h
    · interval_cases a <;> simp
    · rw [List.getD_eq_default _ _ (by simpa using h)]
      norm_num
  ⟨⟨hb, by decide⟩, (checksum_carry_folding _ 0 20 hb (by decide)).2.2.2⟩

/-- C5 (worked example).  The checksum of the ten 16-bit words
`4500 0073 0000 4000 4011 0000 c0a8 0001 c0a8 00c7` (hexadecimal), length 20, is
`0xB861`. -/
theorem checksum_worked_example :
    network_calculate_checksum
      (storeWords (fun _ => 0) 0
        [0x4500, 0x0073, 0x0000, 0x4000, 0x4011, 0x0000, 0xc0a8, 0x0001, 0xc0a8, 0x00c7])
      0 20 = 0xB861 := by
  decide

/-- C6 (odd-length padding).  For a buffer of `2 * k + 1` bytes the accumulator
is the sum of the `k` full words plus the value of the final byte (the final
byte is the low byte of a word whose high byte is 0), the result is the folded
complement of that sum, and a 1-byte buffer holding `0xFF` has checksum `0xFF00`. -/
theorem checksum_odd_length (mem : Mem) (buffer k : Nat) (hb : IsBytes mem) :
    load16 (store8 (store16 (fun _ => 0) 0 0) 0 (load8 mem (buffer + 2 * k))) 0
      = load8 mem (buffer + 2 * k) + 256 * 0 ∧
    checksum_accumulate mem buffer ((2 * k + 1 : Nat) : Int)
      = (wordSum mem buffer k + load8 mem (buffer + 2 * k)) % 2 ^ 32 ∧
    network_calculate_checksum mem buffer ((2 * k + 1 : Nat) : Int)
      = complement16 (fold_carry (fold_step
          ((wordSum mem buffer k + load8 mem (buffer + 2 * k)) % 2 ^ 32))) ∧
    network_calculate_checksum (ofBytes [0xFF]) 0 1 = 0xFF00 := by
  have hbyte : load8 mem (buffer + 2 * k) % 256 = load8 mem (buffer + 2 * k) :=
    Nat.mod_eq_of_lt (hb _)
  have hacc := checksum_accumulate_eq mem buffer k 1 (by norm_num)
  rw [hbyte, Nat.one_mul] at hacc
  refine ⟨?_, hacc, ?_, by decide⟩
  · simp [load16, load8, store16, store8]
    exact hb _
  · unfold network_calculate_checksum
    rw [hacc]

/-- Instance of C6: the three bytes `01 02 FF`. -/
theorem checksum_odd_length_witness :
    IsBytes (fun a => if a = 0 then 1 else if a = 1 then 2 else 255) ∧
    checksum_accumulate (fun a => if a = 0 then 1 else if a = 1 then 2 else 255) 0
        ((2 * 1 + 1 : Nat) : Int)
      = (wordSum (fun a => if a = 0 then 1 else if a = 1 then 2 else 255) 0 1
          + load8 (fun a => if a = 0 then 1 else if a = 1 then 2 else 255) (0 + 2 * 1)) % 2 ^ 32 :=
  have hb : IsBytes (fun a => if a = 0 then 1 else if a = 1 then 2 else 255) := by
    intro a
    show (if a = 0 then 1 else if a = 1 then 2 else 255) < 256
    split_ifs <;> norm_num
  ⟨hb, (checksum_odd_length _ 0 1 hb).2.1⟩

/-- C10 (zero-length input).  With length 0 no buffer word is added to the sum
(the accumulator stays 0) and the result is `0xFFFF`, whatever the buffer holds. -/
theorem checksum_zero_length (mem : Mem) (buffer : Nat) :
    checksum_accumulate mem buffer 0 = 0 ∧ network_calculate_checksum mem buffer 0 = 0xFFFF := by
  constructor
  · simp [checksum_accumulate, checksum_loop]
  · simp [network_calculate_checksum, checksum_accumulate, checksum_loop, fold_step,
      fold_carry, complement16]

/-! ## Header initialisation: claims C7, C8 -/

/-- C7 (IP header fixed fields).  For every destination string, every prior
content of the header memory and every state of the pseudo-random source,
`network_initialize_ip_header` leaves version 4, header length 5 words, type of
service 0, total length 40 in network byte order (bytes `00 28`), fragment flags
0, fragment offset 0, time to live 64, protocol 6 and header checksum 0. -/
theorem ip_header_fixed_fields (inet_addr : String → Nat) (mem : Mem) (ip_header : Nat)
    (dest_ip_str : String) (rng : RandState) :
    let hdr := (network_initialize_ip_header inet_addr mem ip_header dest_ip_str rng).1
    get_iph_ver hdr ip_header = 4 ∧
    get_iph_ihl hdr ip_header = 5 ∧
    load8 hdr (ip_header + off_iph_tos) = 0 ∧
    ntohs (load16 hdr (ip_header + off_iph_len)) = 40 ∧
    load8 hdr (ip_header + off_iph_len) = 0x00 ∧
    load8 hdr (ip_header + off_iph_len + 1) = 0x28 ∧
    get_iph_flag hdr ip_header = 0 ∧
    get_iph_offset hdr ip_header = 0 ∧
    load8 hdr (ip_header + off_iph_ttl) = 64 ∧
    load8 hdr (ip_header + off_iph_protocol) = 6 ∧
    load16 hdr (ip_header + off_iph_chksum) = 0 := by
  simp [network_initialize_ip_header, rand, set_iph_ver, set_iph_ihl, set_iph_flag,
    set_iph_offset, get_iph_ver, get_iph_ihl, get_iph_flag, get_iph_offset, store32, store16,
    store8, load16, load8, htons, ntohs, off_iph_ihl_ver, off_iph_tos, off_iph_len,
    off_iph_ident, off_iph_flag_offset, off_iph_ttl, off_iph_protocol, off_iph_chksum,
    off_iph_sourceip, off_iph_destip, Nat.add_assoc, sizeof_ipheader, sizeof_tcpheader,
    IPPROTO_TCP]
  omega

/-- C8 (TCP SYN header fixed fields).  For every destination port `p` in
0..65535, every prior content of the header memory and every state of the
pseudo-random source, `network_initialize_tcp_header` leaves the destination
port as the big-endian encoding of `p` (bytes `p >> 8`, `p & 0xFF`), the flags
byte `0x02` (SYN only), data offset 5 with reserved bits 0, the window 20000 in
network byte order, and checksum and urgent pointer 0. -/
theorem tcp_header_fixed_fields (mem : Mem) (tcp_header p : Nat) (rng : RandState)
    (hp : p ≤ 65535) :
    let hdr := (network_initialize_tcp_header mem tcp_header p rng).1
    load8 hdr (tcp_header + off_tcp_dport) = p / 256 ∧
    load8 hdr (tcp_header + off_tcp_dport + 1) = p % 256 ∧
    ntohs (load16 hdr (tcp_header + off_tcp_dport)) = p ∧
    load8 hdr (tcp_header + off_tcp_flags) = 0x02 ∧
    TH_OFF hdr tcp_header = 5 ∧
    load8 hdr (tcp_header + off_tcp_offx2) % 16 = 0 ∧
    ntohs (load16 hdr (tcp_header + off_tcp_win)) = 20000 ∧
    load8 hdr (tcp_header + off_tcp_win) = 0x4E ∧
    load8 hdr (tcp_header + off_tcp_win + 1) = 0x20 ∧
    load16 hdr (tcp_header + off_tcp_sum) = 0 ∧
    load16 hdr (tcp_header + off_tcp_urp) = 0 := by
  have hlo := htons_low_byte p
  have hhi := htons_high_byte p
  have hdiv : p / 256 % 256 = p / 256 := Nat.mod_eq_of_lt (by omega)
  have hnt : ntohs (p / 256 + 256 * (p % 256)) = p := by
    have e : p / 256 + 256 * (p % 256) = htons p := by
      unfold htons
      omega
    rw [e, ntohs_htons p (by omega)]
  simp [network_initialize_tcp_header, rand, TH_OFF, store32, store16, store8, load16, load8,
    off_tcp_sport, off_tcp_dport, off_tcp_seq, off_tcp_ack, off_tcp_offx2,
    off_tcp_flags, off_tcp_win, off_tcp_sum, off_tcp_urp, Nat.add_assoc, TH_SYN, hlo, hhi,
    hdiv, hnt]
  decide

/-- Instance of C8: port 80 is encoded as the bytes `00 50`. -/
theorem tcp_header_fixed_fields_witness :
    80 ≤ 65535 ∧
    load8 (network_initialize_tcp_header (fun _ => 0xFF) 20 80 ⟨fun n => 1000 + n, 0⟩).1
      (20 + off_tcp_dport) = 0x00 ∧
    load8 (network_initialize_tcp_header (fun _ => 0xFF) 20 80 ⟨fun n => 1000 + n, 0⟩).1
      (20 + off_tcp_dport + 1) = 0x50 :=
  ⟨by decide,
   (tcp_header_fixed_fields (fun _ => 0xFF) 20 80 ⟨fun n => 1000 + n, 0⟩ (by decide)).1,
   (tcp_header_fixed_fields (fun _ => 0xFF) 20 80 ⟨fun n => 1000 + n, 0⟩ (by decide)).2.1⟩

/-! ## The TCP checksum: claims C2, C3 -/

/-- C3 (pseudo-header).  For every packet whose IP total length `L` (decoded
from network order) satisfies `20 ≤ L ≤ 1540`, `network_calculate_tcp_checksum`
returns the checksum of the `(L - 20) + 12` bytes made of the source address,
the destination address, a zero byte, the protocol byte 6, `L - 20` in network
byte order and the `L - 20` bytes that follow the IP header. -/
theorem tcp_checksum_pseudo_header (pseudo_header mem : Mem) (ip_header L : Nat)
    (hb : IsBytes mem) (hL : ntohs (load16 mem (ip_header + off_iph_len)) = L)
    (h20 : 20 ≤ L) (h1540 : L ≤ 1540) :
    (pseudo_header_bytes mem ip_header L).length = (L - 20) + 12 ∧
    network_calculate_tcp_checksum pseudo_header mem ip_header
      = some (network_calculate_checksum (ofBytes (pseudo_header_bytes mem ip_header L)) 0
          (((L - 20) + 12 : Nat) : Int)) := by
  obtain ⟨seg, rfl⟩ : ∃ seg, L = seg + 20 := ⟨L - 20, by omega⟩
  have hsub : seg + 20 - 20 = seg := by omega
  rw [hsub]
  refine ⟨by simp [pseudo_header_bytes], ?_⟩
  rw [tcp_checksum_unfold pseudo_header mem ip_header seg hL (by omega)]
  congr 1
  apply checksum_congr
  intro i hi
  rw [Nat.zero_add, pseudo_header_filled_apply pseudo_header mem ip_header seg i hi]
  split_ifs with h12
  · obtain ⟨j, rfl⟩ : ∃ j, i = 12 + j := ⟨i - 12, by omega⟩
    have hj : j < seg := by omega
    simp only [ofBytes, pseudo_header_bytes, hsub]
    rw [List.getD_append_right _ _ _ _ (by simp)]
    simp [load8, hj]
  · have b12 := hb (ip_header + 12)
    have b13 := hb (ip_header + 13)
    have b14 := hb (ip_header + 14)
    have b15 := hb (ip_header + 15)
    have b16 := hb (ip_header + 16)
    have b17 := hb (ip_header + 17)
    have b18 := hb (ip_header + 18)
    have b19 := hb (ip_header + 19)
    have hlo := htons_low_byte seg
    have hhi := htons_high_byte seg
    have hdiv : seg / 256 % 256 = seg / 256 := Nat.mod_eq_of_lt (by omega)
    have hi12 : i < 12 := by omega
    interval_cases i <;>
      simp [ofBytes, pseudo_header_bytes, pseudo_header_fields, store32, store16, store8,
        load32, load16, load8, off_saddr, off_daddr, off_mbz, off_ptcl, off_tcpl,
        off_iph_sourceip, off_iph_destip, IPPROTO_TCP, Nat.add_assoc, hlo, hhi, hdiv] <;>
      omega

/-- Instance of C3: a 40-byte packet whose only non-zero byte is the low byte
of the total length. -/
theorem tcp_checksum_pseudo_header_witness :
    (IsBytes (fun a => if a = 3 then 40 else 0) ∧
      ntohs (load16 (fun a => if a = 3 then 40 else 0) (0 + off_iph_len)) = 40 ∧
      20 ≤ 40 ∧ 40 ≤ 1540) ∧
    network_calculate_tcp_checksum (fun _ => 0xAA) (fun a => if a = 3 then 40 else 0) 0
      = some (network_calculate_checksum
          (ofBytes (pseudo_header_bytes (fun a => if a = 3 then 40 else 0) 0 40)) 0
          (((40 - 20) + 12 : Nat) : Int)) :=
  have hb : IsBytes (fun a => if a = 3 then 40 else 0) := by
    intro a
    show (if a = 3 then 40 else 0) < 256
    split_ifs <;> norm_num
  ⟨⟨hb, by decide, by decide, by decide⟩,
   (tcp_checksum_pseudo_header (fun _ => 0xAA) _ 0 40 hb (by decide) (by decide)
      (by decide)).2⟩

theorem ip_header_total_length (inet_addr : String → Nat) (mem : Mem) (ip_header : Nat)
    (dest_ip_str : String) (rng : RandState) :
    ntohs (load16 (network_initialize_ip_header inet_addr mem ip_header dest_ip_str rng).1
      (ip_header + off_iph_len)) = 20 + 20 := by
  simp [network_initialize_ip_header, rand, set_iph_ver, set_iph_ihl, set_iph_flag,
    set_iph_offset, store32, store16, store8, load16, load8, htons, ntohs, off_iph_ihl_ver,
    off_iph_tos, off_iph_len, off_iph_ident, off_iph_flag_offset, off_iph_ttl,
    off_iph_protocol, off_iph_chksum, off_iph_sourceip, off_iph_destip, Nat.add_assoc,
    sizeof_ipheader, sizeof_tcpheader, IPPROTO_TCP]

/-- The initialisation of the IP header writes only the 20 bytes of the header. -/
theorem ip_header_frame (inet_addr : String → Nat) (mem : Mem) (ip_header : Nat)
    (dest_ip_str : String) (rng : RandState) (a : Nat) (ha : ip_header + 20 ≤ a) :
    (network_initialize_ip_header inet_addr mem ip_header dest_ip_str rng).1 a = mem a := by
  have n : ∀ d, d < 20 → a ≠ ip_header + d := by
    intro d hd
    omega
  have n0 : a ≠ ip_header := by omega
  simp [network_initialize_ip_header, rand, set_iph_ver, set_iph_ihl, set_iph_flag,
    set_iph_offset, store32, store16, store8, load16, load8, off_iph_ihl_ver,
    off_iph_tos, off_iph_len, off_iph_ident, off_iph_flag_offset, off_iph_ttl,
    off_iph_protocol, off_iph_chksum, off_iph_sourceip, off_iph_destip, Nat.add_assoc, n0,
    n 0 (by norm_num), n 1 (by norm_num), n 2 (by norm_num), n 3 (by norm_num),
    n 4 (by norm_num), n 5 (by norm_num), n 6 (by norm_num), n 7 (by norm_num),
    n 8 (by norm_num), n 9 (by norm_num), n 10 (by norm_num), n 11 (by norm_num),
    n 12 (by norm_num), n 13 (by norm_num), n 14 (by norm_num), n 15 (by norm_num),
    n 16 (by norm_num), n 17 (by norm_num), n 18 (by norm_num), n 19 (by norm_num)]

theorem tcp_header_sum_zero (mem : Mem) (tcp_header dest_port : Nat) (rng : RandState) :
    load16 (network_initialize_tcp_header mem tcp_header dest_port rng).1
      (tcp_header + off_tcp_sum) = 0 := by
  simp [network_initialize_tcp_header, rand, store32, store16, store8, load16, load8,
    off_tcp_sport, off_tcp_dport, off_tcp_seq, off_tcp_ack, off_tcp_offx2,
    off_tcp_flags, off_tcp_win, off_tcp_sum, off_tcp_urp, Nat.add_assoc]

/-- The packet of `main` just before the TCP checksum is assigned. -/
theorem main_packet_before_checksum (inet_addr : String → Nat) (target_ip : String)
    (dest_port : Nat) (packet_buffer : Mem) (rng : RandState) :
    ntohs (load16 (network_initialize_ip_header inet_addr
        (network_initialize_tcp_header (memset packet_buffer 0 0 PACKET_LEN)
          (0 + sizeof_ipheader) dest_port rng).1 0 target_ip
        (network_initialize_tcp_header (memset packet_buffer 0 0 PACKET_LEN)
          (0 + sizeof_ipheader) dest_port rng).2).1 (0 + off_iph_len)) = 20 + 20 ∧
    load16 (network_initialize_ip_header inet_addr
        (network_initialize_tcp_header (memset packet_buffer 0 0 PACKET_LEN)
          (0 + sizeof_ipheader) dest_port rng).1 0 target_ip
        (network_initialize_tcp_header (memset packet_buffer 0 0 PACKET_LEN)
          (0 + sizeof_ipheader) dest_port rng).2).1 (0 + sizeof_ipheader + off_tcp_sum) = 0 := by
  refine ⟨ip_header_total_length _ _ 0 _ _, ?_⟩
  have h := tcp_header_sum_zero (memset packet_buffer 0 0 PACKET_LEN) (0 + sizeof_ipheader)
    dest_port rng
  simp only [load16, load8] at h ⊢
  rw [ip_header_frame _ _ 0 _ _ _ (by simp only [sizeof_ipheader, off_tcp_sum]; omega),
    ip_header_frame _ _ 0 _ _ _ (by simp only [sizeof_ipheader, off_tcp_sum]; omega)]
  exact h

/-- C2 (end-to-end TCP checksum validity).  For every destination, every port
and every state of the pseudo-random source, the per-packet sequence of `main`
(zero the buffer, initialise the TCP header, initialise the IP header, assign
`tcp_sum`) yields a packet on which `network_calculate_tcp_checksum` returns 0. -/
theorem tcp_checksum_end_to_end (inet_addr : String → Nat) (pseudo_header pseudo_header' : Mem)
    (target_ip : String) (target_port : Int) (packet_buffer : Mem) (rng : RandState) :
    ∃ packet rng', main_build_packet inet_addr pseudo_header target_ip target_port
        packet_buffer rng = some (packet, rng') ∧
      network_calculate_tcp_checksum pseudo_header' packet 0 = some 0 := by
  obtain ⟨hlen, hsum⟩ := main_packet_before_checksum inet_addr target_ip
    (target_port % 2 ^ 16).toNat packet_buffer rng
  obtain ⟨c, hc, hzero⟩ := tcp_checksum_fill pseudo_header pseudo_header' _ 0 20 hlen
    (by norm_num) (by norm_num) hsum
  refine ⟨_, (network_initialize_ip_header inet_addr
    (network_initialize_tcp_header (memset packet_buffer 0 0 PACKET_LEN) (0 + sizeof_ipheader)
      (target_port % 2 ^ 16).toNat rng).1 0 target_ip
    (network_initialize_tcp_header (memset packet_buffer 0 0 PACKET_LEN) (0 + sizeof_ipheader)
      (target_port % 2 ^ 16).toNat rng).2).2, ?_, hzero⟩
  unfold main_build_packet
  simp only []
  rw [hc]
  rfl

/-! ## Raw transmission: claims C11, C12 -/

/-- C11 (endpoint release).  Whatever `socket`, `setsockopt` and `sendto` answer:
when the raw socket was created, the calls made before the function returns or
the process exits contain exactly one `close`, of that socket, and it is the
last call; when the socket was not created there is no `close`. -/
theorem send_closes_socket_once (kernel : Kernel) (mem : Mem) (packet_header : Nat) :
    (0 ≤ kernel.socket_result →
      (network_send_raw_ip_packet kernel mem packet_header).1.filter Syscall.isClose
        = [Syscall.close kernel.socket_result] ∧
      (network_send_raw_ip_packet kernel mem packet_header).1.count
        (Syscall.close kernel.socket_result) = 1 ∧
      (network_send_raw_ip_packet kernel mem packet_header).1.getLast?
        = some (Syscall.close kernel.socket_result)) ∧
    (kernel.socket_result < 0 →
      (network_send_raw_ip_packet kernel mem packet_header).1.filter Syscall.isClose = []) := by
  unfold network_send_raw_ip_packet
  constructor
  · intro hs
    have h1 : ¬ kernel.socket_result < 0 := by omega
    by_cases h2 : kernel.setsockopt_result < 0
    · simp [h1, h2, Syscall.isClose, List.filter, List.count_cons]
    · by_cases h3 : kernel.sendto_result < 0
      · simp [h1, h2, h3, Syscall.isClose, List.filter, List.count_cons]
      · simp [h1, h2, h3, Syscall.isClose, List.filter, List.count_cons]
  · intro hs
    simp [hs, Syscall.isClose, List.filter]

/-- Instance of C11: the socket is created (descriptor 3), `setsockopt` fails. -/
theorem send_closes_socket_once_witness :
    (0 : Int) ≤ (Kernel.mk 3 (-1) 0).socket_result ∧
    (network_send_raw_ip_packet (Kernel.mk 3 (-1) 0) (fun _ => 0) 0).1.filter Syscall.isClose
      = [Syscall.close (Kernel.mk 3 (-1) 0).socket_result] :=
  ⟨by decide, ((send_closes_socket_once (Kernel.mk 3 (-1) 0) (fun _ => 0) 0).1 (by decide)).1⟩

/-- C12 (fatal transmission errors).  The function returns if and only if
`socket`, `setsockopt` and `sendto` all succeed; otherwise the process exits with
`EXIT_FAILURE`.  After a failed `socket` there is neither `setsockopt` nor
`sendto`, after a failed `setsockopt` there is no `sendto`, `sendto` is never
called twice, and when it is called it requests the number of bytes of the IP
total-length field decoded from network order. -/
theorem send_fatal_errors (kernel : Kernel) (mem : Mem) (packet_header : Nat) :
    ((network_send_raw_ip_packet kernel mem packet_header).2 = Termination.returned ↔
      (0 ≤ kernel.socket_result ∧ 0 ≤ kernel.setsockopt_result ∧ 0 ≤ kernel.sendto_result)) ∧
    ((network_send_raw_ip_packet kernel mem packet_header).2 ≠ Termination.returned →
      (network_send_raw_ip_packet kernel mem packet_header).2
        = Termination.exited ExitStatus.EXIT_FAILURE) ∧
    (kernel.socket_result < 0 →
      (network_send_raw_ip_packet kernel mem packet_header).1.filter Syscall.isSetsockopt = [] ∧
      (network_send_raw_ip_packet kernel mem packet_header).1.filter Syscall.isSendto = []) ∧
    (kernel.setsockopt_result < 0 →
      (network_send_raw_ip_packet kernel mem packet_header).1.filter Syscall.isSendto = []) ∧
    ((network_send_raw_ip_packet kernel mem packet_header).1.filter Syscall.isSendto).length ≤ 1 ∧
    (0 ≤ kernel.socket_result → 0 ≤ kernel.setsockopt_result →
      (network_send_raw_ip_packet kernel mem packet_header).1.filter Syscall.isSendto
        = [Syscall.sendto kernel.socket_result
            (ntohs (load16 mem (packet_header + off_iph_len)))
            (load32 mem (packet_header + off_iph_destip))]) := by
  unfold network_send_raw_ip_packet
  by_cases h1 : kernel.socket_result < 0
  · have h1' : ¬ 0 ≤ kernel.socket_result := by omega
    simp [h1, h1', Syscall.isSendto, Syscall.isSetsockopt, List.filter]
  · have h1' : 0 ≤ kernel.socket_result := by omega
    by_cases h2 : kernel.setsockopt_result < 0
    · have h2' : ¬ 0 ≤ kernel.setsockopt_result := by omega
      simp [h1, h1', h2, h2', Syscall.isSendto, Syscall.isSetsockopt, List.filter]
    · have h2' : 0 ≤ kernel.setsockopt_result := by omega
      by_cases h3 : kernel.sendto_result < 0
      · have h3' : ¬ 0 ≤ kernel.sendto_result := by omega
        simp [h1, h1', h2, h2', h3, h3', Syscall.isSendto, Syscall.isSetsockopt, List.filter]
      · have h3' : 0 ≤ kernel.sendto_result := by omega
        simp [h1, h1', h2, h2', h3, h3', Syscall.isSendto, Syscall.isSetsockopt, List.filter]

/-- Instance of C12: socket and `setsockopt` succeed, `sendto` fails. -/
theorem send_fatal_errors_witness :
    ((0 : Int) ≤ (Kernel.mk 3 0 (-1)).socket_result ∧
      (0 : Int) ≤ (Kernel.mk 3 0 (-1)).setsockopt_result) ∧
    (network_send_raw_ip_packet (Kernel.mk 3 0 (-1)) (fun a => if a = 3 then 40 else 0) 0).1.filter
        Syscall.isSendto
      = [Syscall.sendto (Kernel.mk 3 0 (-1)).socket_result
          (ntohs (load16 (fun a => if a = 3 then 40 else 0) (0 + off_iph_len)))
          (load32 (fun a => if a = 3 then 40 else 0) (0 + off_iph_destip))] :=
  ⟨⟨by decide, by decide⟩,
   (send_fatal_errors (Kernel.mk 3 0 (-1)) (fun a => if a = 3 then 40 else 0) 0).2.2.2.2.2
     (by decide) (by decide)⟩

/-! ## Byte order of the checksum: claim C13 -/

/-- Multiplying the native word sum by 256 gives the big-endian word sum, up to
a multiple of 65535. -/
theorem wordSum_swap (mem : Mem) (p : Nat) :
    ∀ k, ∃ T, 256 * wordSum mem p k = wordSumBE mem p k + 65535 * T := by
  intro k
  induction k with
  | zero => exact ⟨0, rfl⟩
  | succ k ih =>
    obtain ⟨T, hT⟩ := ih
    refine ⟨T + load8 mem (p + 2 * k + 1), ?_⟩
    simp only [wordSum, wordSumBE, load16]
    omega

theorem exactSum_swap (mem : Mem) (p n : Nat) :
    ∃ T, 256 * exactSum mem p n = rfc1071_sum mem p n + 65535 * T := by
  obtain ⟨T, hT⟩ := wordSum_swap mem p (n / 2)
  refine ⟨T, ?_⟩
  unfold exactSum rfc1071_sum
  split_ifs <;> omega

theorem wordSumBE_le (mem : Mem) (hb : IsBytes mem) (p : Nat) :
    ∀ k, wordSumBE mem p k ≤ 65535 * k := by
  intro k
  induction k with
  | zero => simp [wordSumBE]
  | succ k ih =>
    have h1 := hb (p + 2 * k)
    have h2 := hb (p + 2 * k + 1)
    simp only [wordSumBE, load8]
    omega

theorem rfc1071_sum_le (mem : Mem) (hb : IsBytes mem) (p n : Nat) :
    rfc1071_sum mem p n ≤ 65535 * (n / 2) + 65280 := by
  unfold rfc1071_sum
  have h1 := wordSumBE_le mem hb p (n / 2)
  have h2 := hb (p + 2 * (n / 2))
  simp only [load8]
  split_ifs <;> omega

/-- The folded sum is the residue of the sum modulo 65535, with 0 only for the
sum 0. -/
theorem fold_until_no_carry_char (s : Nat) (hs : s < 2 ^ 32) :
    fold_until_no_carry s ≤ 65535 ∧
    fold_until_no_carry s % 65535 = s % 65535 ∧
    (fold_until_no_carry s = 0 ↔ s = 0) := by
  rw [fold_until_no_carry_eq s hs]
  have hs' : s < 4294967296 := by norm_num at hs; exact hs
  have hdecomp : s = 65535 * (s / 65536) + (s / 65536 + s % 65536) := by omega
  have hh : s / 65536 < 65536 := by omega
  have hl : s % 65536 < 65536 := Nat.mod_lt _ (by norm_num)
  generalize s / 65536 = h at hdecomp hh ⊢
  generalize s % 65536 = l at hdecomp hl ⊢
  split_ifs with ht
  · refine ⟨by omega, by omega, by omega⟩
  · refine ⟨by omega, by omega, by omega⟩

/-- The value returned by `network_calculate_checksum` when the accumulator
cannot wrap. -/
theorem checksum_eq_complement_fold (mem : Mem) (buffer : Nat) (length : Int)
    (hb : IsBytes mem) (hlen : length ≤ 1532) :
    exactSum mem buffer length.toNat < 2 ^ 32 ∧
    network_calculate_checksum mem buffer length
      = 65535 - fold_until_no_carry (exactSum mem buffer length.toNat) := by
  have hcast : checksum_accumulate mem buffer length
      = checksum_accumulate mem buffer (length.toNat : Int) := by
    simp only [checksum_accumulate, Int.toNat_ofNat]
  have hn : length.toNat ≤ 1532 := by omega
  have hle := exactSum_le mem hb buffer length.toNat
  have hlt : exactSum mem buffer length.toNat < 2 ^ 32 := by
    norm_num
    omega
  have hacc : checksum_accumulate mem buffer length = exactSum mem buffer length.toNat := by
    rw [hcast, checksum_accumulate_exact mem hb, Nat.mod_eq_of_lt hlt]
  refine ⟨hlt, ?_⟩
  unfold network_calculate_checksum
  rw [hacc, complement_fold_eq _ hlt, fold_until_no_carry_eq _ hlt]
  split_ifs <;> omega

/-- Two 16-bit values, the second congruent to 256 times the first modulo
65535 and zero together with it, are byte swaps of each other; so are their
complements. -/
theorem complement_swap (f F : Nat) (hf : f ≤ 65535) (hF : F ≤ 65535)
    (hmod : F % 65535 = (256 * f) % 65535) (hzero : F = 0 ↔ f = 0) :
    (65535 - f) % 256 = (65535 - F) / 256 ∧ (65535 - f) / 256 % 256 = (65535 - F) % 256 := by
  have hsw : F = 256 * (f % 256) + f / 256 := by
    have hlo : f % 256 < 256 := Nat.mod_lt _ (by norm_num)
    have hhi : f / 256 < 256 := by omega
    have hfd : f = 256 * (f / 256) + f % 256 := by omega
    generalize f % 256 = lo at hlo hfd ⊢
    generalize f / 256 = hi at hhi hfd ⊢
    subst hfd
    have e : 256 * (256 * hi + lo) = 65535 * hi + (256 * lo + hi) := by ring
    rw [e] at hmod
    have hm2 : F % 65535 = (256 * lo + hi) % 65535 := by omega
    by_cases h0 : 256 * lo + hi = 65535
    · have : F ≠ 0 := by
        intro hF0
        have := hzero.mp hF0
        omega
      omega
    · have hlt : 256 * lo + hi < 65535 := by omega
      by_cases hF1 : F = 65535
      · have hz : 256 * lo + hi = 0 := by omega
        have : 256 * hi + lo = 0 := by omega
        have := hzero.mpr this
        omega
      · omega
  have hlo : f % 256 < 256 := Nat.mod_lt _ (by norm_num)
  have hhi : f / 256 < 256 := by omega
  have hfd : f = 256 * (f / 256) + f % 256 := by omega
  clear hmod hzero hf hF
  generalize f % 256 = lo at hlo hfd hsw
  generalize f / 256 = hi at hhi hfd hsw
  subst hfd hsw
  have e1 : 65535 - (256 * hi + lo) = 256 * (255 - hi) + (255 - lo) := by omega
  have e2 : 65535 - (256 * lo + hi) = 256 * (255 - lo) + (255 - hi) := by omega
  rw [e1, e2]
  clear e1 e2
  have ha : 255 - lo ≤ 255 := by omega
  have hb : 255 - hi ≤ 255 := by omega
  generalize 255 - lo = a at ha ⊢
  generalize 255 - hi = b at hb ⊢
  have ha0 : a / 256 = 0 := Nat.div_eq_of_lt (by omega)
  have hb0 : b / 256 = 0 := Nat.div_eq_of_lt (by omega)
  have ha1 : a % 256 = a := Nat.mod_eq_of_lt (by omega)
  have hb1 : b % 256 = b := Nat.mod_eq_of_lt (by omega)
  rw [Nat.mul_add_mod, Nat.mul_add_div (by norm_num), Nat.mul_add_div (by norm_num),
    Nat.mul_add_mod, ha0, hb0, ha1, hb1]
  simp [hb1]

theorem wordSum_swap_le (mem : Mem) (p : Nat) :
    ∀ k, wordSumBE mem p k ≤ 256 * wordSum mem p k ∧ wordSum mem p k ≤ 256 * wordSumBE mem p k := by
  intro k
  induction k with
  | zero => simp [wordSum, wordSumBE]
  | succ k ih =>
    simp only [wordSum, wordSumBE, load16]
    omega

theorem exactSum_zero_iff (mem : Mem) (p n : Nat) :
    rfc1071_sum mem p n = 0 ↔ exactSum mem p n = 0 := by
  have h := wordSum_swap_le mem p (n / 2)
  unfold exactSum rfc1071_sum
  split_ifs <;> omega

/-- C13 (byte order).  On the little-endian target, for every byte buffer of at
most 1532 bytes, of even or odd length, the two bytes that the native 16-bit
result of `network_calculate_checksum` occupies in memory are the big-endian
encoding of the RFC 1071 reference checksum: the one's complement of the
one's-complement sum of the buffer read as big-endian 16-bit words, an odd
trailing byte padded on the right with a zero byte. -/
theorem checksum_network_byte_order (mem dst : Mem) (buffer a : Nat) (length : Int)
    (hb : IsBytes mem) (hlen : length ≤ 1532) :
    rfc1071_checksum mem buffer length.toNat ≤ 0xFFFF ∧
    load8 (store16 dst a (network_calculate_checksum mem buffer length)) a
      = rfc1071_checksum mem buffer length.toNat / 256 ∧
    load8 (store16 dst a (network_calculate_checksum mem buffer length)) (a + 1)
      = rfc1071_checksum mem buffer length.toNat % 256 := by
  obtain ⟨hlt, hck⟩ := checksum_eq_complement_fold mem buffer length hb hlen
  obtain ⟨T, hT⟩ := exactSum_swap mem buffer length.toNat
  have hn : length.toNat ≤ 1532 := by omega
  have hle := rfc1071_sum_le mem hb buffer length.toNat
  have hlt' : rfc1071_sum mem buffer length.toNat < 2 ^ 32 := by
    norm_num
    omega
  obtain ⟨hf, hfm, hfz⟩ := fold_until_no_carry_char _ hlt
  obtain ⟨hF, hFm, hFz⟩ := fold_until_no_carry_char _ hlt'
  have hz := exactSum_zero_iff mem buffer length.toNat
  have hmod : fold_until_no_carry (rfc1071_sum mem buffer length.toNat) % 65535
      = (256 * fold_until_no_carry (exactSum mem buffer length.toNat)) % 65535 := by
    rw [hFm]
    omega
  have hzero : fold_until_no_carry (rfc1071_sum mem buffer length.toNat) = 0
      ↔ fold_until_no_carry (exactSum mem buffer length.toNat) = 0 := by
    rw [hFz, hfz, hz]
  obtain ⟨h1, h2⟩ := complement_swap _ _ hf hF hmod hzero
  have hs1 : ∀ c, load8 (store16 dst a c) a = c % 256 := by
    intro c
    simp [load8, store16, store8]
  have hs2 : ∀ c, load8 (store16 dst a c) (a + 1) = c / 256 % 256 := by
    intro c
    simp [load8, store16, store8]
  rw [hs1, hs2, hck]
  unfold rfc1071_checksum
  refine ⟨by omega, h1, h2⟩

/-- Instance of C13: the three bytes `01 02 FF`. -/
theorem checksum_network_byte_order_witness :
    (IsBytes (fun a => if a = 0 then 1 else if a = 1 then 2 else 255) ∧ (3 : Int) ≤ 1532) ∧
    load8 (store16 (fun _ => 0) 16 (network_calculate_checksum
        (fun a => if a = 0 then 1 else if a = 1 then 2 else 255) 0 3)) 16
      = rfc1071_checksum (fun a => if a = 0 then 1 else if a = 1 then 2 else 255) 0
          (3 : Int).toNat / 256 :=
  have hb : IsBytes (fun a => if a = 0 then 1 else if a = 1 then 2 else 255) := by
    intro a
    show (if a = 0 then 1 else if a = 1 then 2 else 255) < 256
    split_ifs <;> norm_num
  ⟨⟨hb, by decide⟩, (checksum_network_byte_order _ (fun _ => 0) 0 16 3 hb (by decide)).2.1⟩

/-! ## Determinism of the packet: claim C14 -/

theorem tcp_header_rng (mem : Mem) (tcp_header dest_port : Nat) (rng : RandState) :
    (network_initialize_tcp_header mem tcp_header dest_port rng).2
      = { stream := rng.stream, pos := rng.pos + 2 } := by
  simp [network_initialize_tcp_header, rand]

theorem ip_header_rng (inet_addr : String → Nat) (mem : Mem) (ip_header : Nat)
    (dest_ip_str : String) (rng : RandState) :
    (network_initialize_ip_header inet_addr mem ip_header dest_ip_str rng).2
      = { stream := rng.stream, pos := rng.pos + 2 } := by
  simp [network_initialize_ip_header, rand]

/-- The initialisation of the TCP header writes only the 20 bytes of the header. -/
theorem tcp_header_frame (mem : Mem) (tcp_header dest_port : Nat) (rng : RandState) (a : Nat)
    (ha : tcp_header + 20 ≤ a) :
    (network_initialize_tcp_header mem tcp_header dest_port rng).1 a = mem a := by
  have n : ∀ d, d < 20 → a ≠ tcp_header + d := by
    intro d hd
    omega
  have n0 : a ≠ tcp_header := by omega
  simp [network_initialize_tcp_header, rand, store32, store16, store8, off_tcp_sport,
    off_tcp_dport, off_tcp_seq, off_tcp_offx2, off_tcp_flags, off_tcp_win, off_tcp_sum,
    off_tcp_urp, Nat.add_assoc, n0,
    n 1 (by norm_num), n 2 (by norm_num), n 3 (by norm_num),
    n 4 (by norm_num), n 5 (by norm_num), n 6 (by norm_num), n 7 (by norm_num),
    n 12 (by norm_num), n 13 (by norm_num), n 14 (by norm_num), n 15 (by norm_num),
    n 16 (by norm_num), n 17 (by norm_num), n 18 (by norm_num), n 19 (by norm_num)]

/-- The bytes of an initialised TCP header depend only on the port, the two
values drawn, and the four bytes of `tcp_ack`, which are not written. -/
theorem tcp_header_congr (mem mem' : Mem) (tcp_header dest_port : Nat) (rng rng' : RandState)
    (h0 : rng.stream rng.pos = rng'.stream rng'.pos)
    (h1 : rng.stream (rng.pos + 1) = rng'.stream (rng'.pos + 1)) (d : Nat)
    (hm : (8 ≤ d ∧ d < 12) ∨ 20 ≤ d → mem (tcp_header + d) = mem' (tcp_header + d)) :
    (network_initialize_tcp_header mem tcp_header dest_port rng).1 (tcp_header + d)
      = (network_initialize_tcp_header mem' tcp_header dest_port rng').1 (tcp_header + d) := by
  by_cases hd : d < 20
  · interval_cases d <;>
      simp [network_initialize_tcp_header, rand, store32, store16, store8, off_tcp_sport,
        off_tcp_dport, off_tcp_seq, off_tcp_offx2, off_tcp_flags, off_tcp_win, off_tcp_sum,
        off_tcp_urp, Nat.add_assoc, h0, h1] <;>
      exact hm (by omega)
  · rw [tcp_header_frame _ _ _ _ _ (by omega), tcp_header_frame _ _ _ _ _ (by omega)]
    exact hm (by omega)

/-- The bytes of an initialised IP header depend only on the destination
address and the two values drawn. -/
theorem ip_header_congr (inet_addr inet_addr' : String → Nat) (mem mem' : Mem)
    (ip_header : Nat) (s s' : String) (rng rng' : RandState)
    (hd : inet_addr s = inet_addr' s')
    (h0 : rng.stream rng.pos = rng'.stream rng'.pos)
    (h1 : rng.stream (rng.pos + 1) = rng'.stream (rng'.pos + 1)) (d : Nat)
    (hm : 20 ≤ d → mem (ip_header + d) = mem' (ip_header + d)) :
    (network_initialize_ip_header inet_addr mem ip_header s rng).1 (ip_header + d)
      = (network_initialize_ip_header inet_addr' mem' ip_header s' rng').1 (ip_header + d) := by
  by_cases hlt : d < 20
  · interval_cases d <;>
      simp [network_initialize_ip_header, rand, set_iph_ver, set_iph_ihl, set_iph_flag,
        set_iph_offset, store32, store16, store8, load16, load8, off_iph_ihl_ver,
        off_iph_tos, off_iph_len, off_iph_ident, off_iph_flag_offset, off_iph_ttl,
        off_iph_protocol, off_iph_chksum, off_iph_sourceip, off_iph_destip, Nat.add_assoc,
        hd, h0, h1] <;>
      omega
  · rw [ip_header_frame _ _ _ _ _ _ (by omega), ip_header_frame _ _ _ _ _ _ (by omega)]
    exact hm (by omega)

/-- The TCP checksum depends only on the bytes of the packet. -/
theorem tcp_checksum_congr (ps ps' mem mem' : Mem) (ip_header seg : Nat)
    (hL : ntohs (load16 mem (ip_header + off_iph_len)) = seg + 20) (hseg : seg ≤ 1520)
    (hagree : ∀ d, d < seg + 20 → mem (ip_header + d) = mem' (ip_header + d)) :
    network_calculate_tcp_checksum ps mem ip_header
      = network_calculate_tcp_checksum ps' mem' ip_header := by
  have hlen : load16 mem' (ip_header + off_iph_len) = load16 mem (ip_header + off_iph_len) := by
    simp only [load16, load8, off_iph_len, Nat.add_assoc]
    rw [hagree 2 (by omega), hagree (2 + 1) (by omega)]
  have hsa : load32 mem' (ip_header + off_iph_sourceip)
      = load32 mem (ip_header + off_iph_sourceip) := by
    simp only [load32, load16, load8, off_iph_sourceip, Nat.add_assoc]
    rw [hagree 12 (by omega), hagree (12 + 1) (by omega), hagree (12 + 2) (by omega),
      hagree (12 + (2 + 1)) (by omega)]
  have hda : load32 mem' (ip_header + off_iph_destip)
      = load32 mem (ip_header + off_iph_destip) := by
    simp only [load32, load16, load8, off_iph_destip, Nat.add_assoc]
    rw [hagree 16 (by omega), hagree (16 + 1) (by omega), hagree (16 + 2) (by omega),
      hagree (16 + (2 + 1)) (by omega)]
  have hL' : ntohs (load16 mem' (ip_header + off_iph_len)) = seg + 20 := by rw [hlen, hL]
  have hag : ∀ i, i < seg + 12 →
      pseudo_header_filled ps mem ip_header seg (0 + i)
        = pseudo_header_filled ps' mem' ip_header seg (0 + i) := by
    intro i hi
    rw [Nat.zero_add, pseudo_header_filled_apply _ _ _ _ _ hi,
      pseudo_header_filled_apply _ _ _ _ _ hi, hsa, hda]
    split_ifs with h12
    · rw [Nat.add_assoc]
      exact hagree _ (by omega)
    · rfl
  rw [tcp_checksum_unfold ps mem ip_header seg hL hseg,
    tcp_checksum_unfold ps' mem' ip_header seg hL' hseg,
    checksum_congr _ _ 0 0 (seg + 12) hag]

/-- The packet of `main` before the checksum is assigned depends, inside the
buffer, only on the destination address, the port and the four values drawn. -/
theorem main_packet_congr (inet_addr inet_addr' : String → Nat) (target_ip target_ip' : String)
    (dest_port : Nat) (packet_buffer packet_buffer' : Mem) (rng rng' : RandState)
    (hd : inet_addr target_ip = inet_addr' target_ip')
    (hr : ∀ i, i < 4 → rng'.stream (rng'.pos + i) = rng.stream (rng.pos + i))
    (a : Nat) (ha : a < PACKET_LEN) :
    (network_initialize_ip_header inet_addr
        (network_initialize_tcp_header (memset packet_buffer 0 0 PACKET_LEN)
          (0 + sizeof_ipheader) dest_port rng).1 0 target_ip
        (network_initialize_tcp_header (memset packet_buffer 0 0 PACKET_LEN)
          (0 + sizeof_ipheader) dest_port rng).2).1 a
    = (network_initialize_ip_header inet_addr'
        (network_initialize_tcp_header (memset packet_buffer' 0 0 PACKET_LEN)
          (0 + sizeof_ipheader) dest_port rng').1 0 target_ip'
        (network_initialize_tcp_header (memset packet_buffer' 0 0 PACKET_LEN)
          (0 + sizeof_ipheader) dest_port rng').2).1 a := by
  have h0 := hr 0 (by norm_num)
  have h1 := hr 1 (by norm_num)
  have h2 := hr 2 (by norm_num)
  have h3 := hr 3 (by norm_num)
  have key := ip_header_congr inet_addr inet_addr'
    (network_initialize_tcp_header (memset packet_buffer 0 0 PACKET_LEN)
      (0 + sizeof_ipheader) dest_port rng).1
    (network_initialize_tcp_header (memset packet_buffer' 0 0 PACKET_LEN)
      (0 + sizeof_ipheader) dest_port rng').1 0 target_ip target_ip'
    (network_initialize_tcp_header (memset packet_buffer 0 0 PACKET_LEN)
      (0 + sizeof_ipheader) dest_port rng).2
    (network_initialize_tcp_header (memset packet_buffer' 0 0 PACKET_LEN)
      (0 + sizeof_ipheader) dest_port rng').2 hd
    (by rw [tcp_header_rng, tcp_header_rng]; exact h2.symm)
    (by rw [tcp_header_rng, tcp_header_rng]; exact h3.symm) a
    (by
      intro h20
      obtain ⟨e, rfl⟩ : ∃ e, a = 20 + e := ⟨a - 20, by omega⟩
      have := tcp_header_congr (memset packet_buffer 0 0 PACKET_LEN)
        (memset packet_buffer' 0 0 PACKET_LEN) (0 + sizeof_ipheader) dest_port rng rng'
        (by simpa using h0.symm) h1.symm e
        (by
          intro _
          have hin : 0 ≤ 0 + sizeof_ipheader + e ∧ 0 + sizeof_ipheader + e < 0 + PACKET_LEN := by
            simp only [sizeof_ipheader]
            omega
          simp only [memset]
          rw [if_pos hin, if_pos hin])
      simpa [sizeof_ipheader] using this)
  simpa using key

/-- The result of the per-packet sequence of `main`, given the value of the TCP
checksum of the initialised packet. -/
theorem main_build_packet_eq (inet_addr : String → Nat) (pseudo_header : Mem)
    (target_ip : String) (target_port : Int) (packet_buffer : Mem) (rng : RandState) (c : Nat)
    (hc : network_calculate_tcp_checksum pseudo_header
      (network_initialize_ip_header inet_addr
        (network_initialize_tcp_header (memset packet_buffer 0 0 PACKET_LEN)
          (0 + sizeof_ipheader) (target_port % 2 ^ 16).toNat rng).1 0 target_ip
        (network_initialize_tcp_header (memset packet_buffer 0 0 PACKET_LEN)
          (0 + sizeof_ipheader) (target_port % 2 ^ 16).toNat rng).2).1 0 = some c) :
    main_build_packet inet_addr pseudo_header target_ip target_port packet_buffer rng
      = some (store16 (network_initialize_ip_header inet_addr
          (network_initialize_tcp_header (memset packet_buffer 0 0 PACKET_LEN)
            (0 + sizeof_ipheader) (target_port % 2 ^ 16).toNat rng).1 0 target_ip
          (network_initialize_tcp_header (memset packet_buffer 0 0 PACKET_LEN)
            (0 + sizeof_ipheader) (target_port % 2 ^ 16).toNat rng).2).1
          (0 + sizeof_ipheader + off_tcp_sum) c,
        (network_initialize_ip_header inet_addr
          (network_initialize_tcp_header (memset packet_buffer 0 0 PACKET_LEN)
            (0 + sizeof_ipheader) (target_port % 2 ^ 16).toNat rng).1 0 target_ip
          (network_initialize_tcp_header (memset packet_buffer 0 0 PACKET_LEN)
            (0 + sizeof_ipheader) (target_port % 2 ^ 16).toNat rng).2).2) := by
  unfold main_build_packet
  simp only []
  rw [hc]
  rfl

/-- The two fields of the TCP header that are drawn from the pseudo-random source. -/
theorem tcp_header_random_fields (mem : Mem) (tcp_header dest_port : Nat) (rng : RandState) :
    load16 (network_initialize_tcp_header mem tcp_header dest_port rng).1
      (tcp_header + off_tcp_sport) = rng.stream rng.pos % 2 ^ 16 ∧
    load32 (network_initialize_tcp_header mem tcp_header dest_port rng).1
      (tcp_header + off_tcp_seq) = rng.stream (rng.pos + 1) % 2 ^ 32 := by
  constructor
  · simp [network_initialize_tcp_header, rand, store32, store16, store8, load16, load8,
      off_tcp_sport, off_tcp_dport, off_tcp_seq, off_tcp_offx2, off_tcp_flags, off_tcp_win,
      off_tcp_sum, off_tcp_urp, Nat.add_assoc]
    omega
  · simp [network_initialize_tcp_header, rand, store32, store16, store8, load32, load16,
      load8, off_tcp_sport, off_tcp_dport, off_tcp_seq, off_tcp_offx2, off_tcp_flags,
      off_tcp_win, off_tcp_sum, off_tcp_urp, Nat.add_assoc]
    omega

/-- The two fields of the IP header that are drawn from the pseudo-random source. -/
theorem ip_header_random_fields (inet_addr : String → Nat) (mem : Mem) (ip_header : Nat)
    (dest_ip_str : String) (rng : RandState) :
    load32 (network_initialize_ip_header inet_addr mem ip_header dest_ip_str rng).1
      (ip_header + off_iph_sourceip) = rng.stream rng.pos % 2 ^ 32 ∧
    load16 (network_initialize_ip_header inet_addr mem ip_header dest_ip_str rng).1
      (ip_header + off_iph_ident) = htons (rng.stream (rng.pos + 1) % 2 ^ 16) := by
  have hlt := htons_lt (rng.stream (rng.pos + 1) % 65536)
  constructor
  · simp [network_initialize_ip_header, rand, set_iph_ver, set_iph_ihl, set_iph_flag,
      set_iph_offset, store32, store16, store8, load32, load16, load8, off_iph_ihl_ver,
      off_iph_tos, off_iph_len, off_iph_ident, off_iph_flag_offset, off_iph_ttl,
      off_iph_protocol, off_iph_chksum, off_iph_sourceip, off_iph_destip, Nat.add_assoc]
    omega
  · simp [network_initialize_ip_header, rand, set_iph_ver, set_iph_ihl, set_iph_flag,
      set_iph_offset, store32, store16, store8, load16, load8, off_iph_ihl_ver,
      off_iph_tos, off_iph_len, off_iph_ident, off_iph_flag_offset, off_iph_ttl,
      off_iph_protocol, off_iph_chksum, off_iph_sourceip, off_iph_destip, Nat.add_assoc]
    omega

theorem main_packet_congr_zero (inet_addr inet_addr' : String → Nat)
    (target_ip target_ip' : String) (dest_port : Nat) (packet_buffer packet_buffer' : Mem)
    (rng rng' : RandState) (hd : inet_addr target_ip = inet_addr' target_ip')
    (hr : ∀ i, i < 4 → rng'.stream (rng'.pos + i) = rng.stream (rng.pos + i))
    (a : Nat) (ha : a < PACKET_LEN) :
    (network_initialize_ip_header inet_addr
        (network_initialize_tcp_header (memset packet_buffer 0 0 PACKET_LEN)
          (0 + sizeof_ipheader) dest_port rng).1 0 target_ip
        (network_initialize_tcp_header (memset packet_buffer 0 0 PACKET_LEN)
          (0 + sizeof_ipheader) dest_port rng).2).1 (0 + a)
    = (network_initialize_ip_header inet_addr'
        (network_initialize_tcp_header (memset packet_buffer' 0 0 PACKET_LEN)
          (0 + sizeof_ipheader) dest_port rng').1 0 target_ip'
        (network_initialize_tcp_header (memset packet_buffer' 0 0 PACKET_LEN)
          (0 + sizeof_ipheader) dest_port rng').2).1 (0 + a) := by
  rw [Nat.zero_add a]
  exact main_packet_congr inet_addr inet_addr' target_ip target_ip' dest_port packet_buffer
    packet_buffer' rng rng' hd hr a ha

theorem load32_store16_other (mem : Mem) (a b v : Nat) (h : a + 2 ≤ b ∨ b + 4 ≤ a) :
    load32 (store16 mem a v) b = load32 mem b := by
  simp only [load32]
  rw [load16_store16_other _ _ _ _ (by omega), load16_store16_other _ _ _ _ (by omega)]

theorem load16_ip_header_frame (inet_addr : String → Nat) (mem : Mem) (ip_header : Nat)
    (dest_ip_str : String) (rng : RandState) (a : Nat) (ha : ip_header + 20 ≤ a) :
    load16 (network_initialize_ip_header inet_addr mem ip_header dest_ip_str rng).1 a
      = load16 mem a := by
  simp only [load16, load8]
  rw [ip_header_frame _ _ _ _ _ _ ha, ip_header_frame _ _ _ _ _ _ (by omega)]

theorem load32_ip_header_frame (inet_addr : String → Nat) (mem : Mem) (ip_header : Nat)
    (dest_ip_str : String) (rng : RandState) (a : Nat) (ha : ip_header + 20 ≤ a) :
    load32 (network_initialize_ip_header inet_addr mem ip_header dest_ip_str rng).1 a
      = load32 mem a := by
  simp only [load32]
  rw [load16_ip_header_frame _ _ _ _ _ _ ha, load16_ip_header_frame _ _ _ _ _ _ (by omega)]

/-- C14 (pseudo-random draw order).  Constructing one packet draws exactly four
values `r1 r2 r3 r4` from the pseudo-random source, in that order, and sets the
source port to `r1 mod 2^16`, the sequence number to `r2`, the source address to
`r3` and the identification to the network-order encoding of `r4 mod 2^16`; two
constructions that agree on the destination address, the port and these four
values give the same 40 bytes, TCP checksum included, whatever the buffer, the
stack and the rest of the pseudo-random stream hold. -/
theorem packet_determined_by_draws (inet_addr inet_addr' : String → Nat)
    (pseudo_header pseudo_header' : Mem) (target_ip target_ip' : String) (target_port : Int)
    (packet_buffer packet_buffer' : Mem) (rng rng' : RandState)
    (hmax : ∀ i, i < 4 → rng.stream (rng.pos + i) < 2 ^ 31)
    (hd : inet_addr target_ip = inet_addr' target_ip')
    (hr : ∀ i, i < 4 → rng'.stream (rng'.pos + i) = rng.stream (rng.pos + i)) :
    ∃ packet packet' g g',
      main_build_packet inet_addr pseudo_header target_ip target_port packet_buffer rng
        = some (packet, g) ∧
      main_build_packet inet_addr' pseudo_header' target_ip' target_port packet_buffer' rng'
        = some (packet', g') ∧
      g = { stream := rng.stream, pos := rng.pos + 4 } ∧
      load16 packet (0 + sizeof_ipheader + off_tcp_sport) = rng.stream rng.pos % 2 ^ 16 ∧
      load32 packet (0 + sizeof_ipheader + off_tcp_seq) = rng.stream (rng.pos + 1) ∧
      load32 packet (0 + off_iph_sourceip) = rng.stream (rng.pos + 2) ∧
      load16 packet (0 + off_iph_ident) = htons (rng.stream (rng.pos + 3) % 2 ^ 16) ∧
      ∀ a, a < 40 → packet a = packet' a := by
  obtain ⟨hlen, -⟩ := main_packet_before_checksum inet_addr target_ip
    (target_port % 2 ^ 16).toNat packet_buffer rng
  obtain ⟨hlen', -⟩ := main_packet_before_checksum inet_addr' target_ip'
    (target_port % 2 ^ 16).toNat packet_buffer' rng'
  have hc := tcp_checksum_unfold pseudo_header _ 0 20 hlen (by norm_num)
  have hc' := tcp_checksum_unfold pseudo_header' _ 0 20 hlen' (by norm_num)
  have hPP := main_packet_congr inet_addr inet_addr' target_ip target_ip'
    (target_port % 2 ^ 16).toNat packet_buffer packet_buffer' rng rng' hd hr
  have hag : ∀ d, d < 20 + 20 →
      (network_initialize_ip_header inet_addr
        (network_initialize_tcp_header (memset packet_buffer 0 0 PACKET_LEN)
          (0 + sizeof_ipheader) (target_port % 2 ^ 16).toNat rng).1 0 target_ip
        (network_initialize_tcp_header (memset packet_buffer 0 0 PACKET_LEN)
          (0 + sizeof_ipheader) (target_port % 2 ^ 16).toNat rng).2).1 (0 + d)
      = (network_initialize_ip_header inet_addr'
        (network_initialize_tcp_header (memset packet_buffer' 0 0 PACKET_LEN)
          (0 + sizeof_ipheader) (target_port % 2 ^ 16).toNat rng').1 0 target_ip'
        (network_initialize_tcp_header (memset packet_buffer' 0 0 PACKET_LEN)
          (0 + sizeof_ipheader) (target_port % 2 ^ 16).toNat rng').2).1 (0 + d) := by
    intro d hd20
    have hlt : d < PACKET_LEN := by
      simp only [PACKET_LEN]
      omega
    have h1 := main_packet_congr_zero inet_addr inet_addr' target_ip target_ip'
      (target_port % 2 ^ 16).toNat packet_buffer packet_buffer' rng rng' hd hr d hlt
    exact h1
  have hcc := tcp_checksum_congr pseudo_header pseudo_header' _ _ 0 20 hlen (by norm_num) hag
  rw [hc, hc'] at hcc
  have hceq := Option.some.inj hcc
  have hr1 := hmax 1 (by norm_num)
  have hr2 := hmax 2 (by norm_num)
  have htcp := tcp_header_random_fields (memset packet_buffer 0 0 PACKET_LEN)
    (0 + sizeof_ipheader) (target_port % 2 ^ 16).toNat rng
  have hip := ip_header_random_fields inet_addr
    (network_initialize_tcp_header (memset packet_buffer 0 0 PACKET_LEN)
      (0 + sizeof_ipheader) (target_port % 2 ^ 16).toNat rng).1 0 target_ip
    (network_initialize_tcp_header (memset packet_buffer 0 0 PACKET_LEN)
      (0 + sizeof_ipheader) (target_port % 2 ^ 16).toNat rng).2
  refine ⟨_, _, _, _, main_build_packet_eq _ _ _ _ _ _ _ hc, main_build_packet_eq _ _ _ _ _ _ _ hc',
    ?_, ?_, ?_, ?_, ?_, ?_⟩
  · rw [ip_header_rng, tcp_header_rng]
  · rw [load16_store16_other _ _ _ _ (by simp only [sizeof_ipheader, off_tcp_sum, off_tcp_sport]; omega),
      load16_ip_header_frame _ _ _ _ _ _ (by simp only [sizeof_ipheader, off_tcp_sport]; omega)]
    exact htcp.1
  · rw [load32_store16_other _ _ _ _ (by simp only [sizeof_ipheader, off_tcp_sum, off_tcp_seq]; omega),
      load32_ip_header_frame _ _ _ _ _ _ (by simp only [sizeof_ipheader, off_tcp_seq]; omega),
      htcp.2]
    exact Nat.mod_eq_of_lt (by omega)
  · rw [load32_store16_other _ _ _ _ (by simp only [sizeof_ipheader, off_tcp_sum, off_iph_sourceip]; omega),
      hip.1, tcp_header_rng]
    show rng.stream (rng.pos + 2) % 2 ^ 32 = rng.stream (rng.pos + 2)
    exact Nat.mod_eq_of_lt (by omega)
  · rw [load16_store16_other _ _ _ _ (by simp only [sizeof_ipheader, off_tcp_sum, off_iph_ident]; omega),
      hip.2, tcp_header_rng]
  · intro a ha
    rw [hceq]
    simp only [store16, store8]
    rw [hPP a (by simp only [PACKET_LEN]; omega)]

/-- Instance of C14: two constructions with different buffers, stacks and
stream positions that agree on the four values drawn. -/
theorem packet_determined_by_draws_witness :
    ((∀ i, i < 4 → (RandState.mk (fun n => 1000 + n) 0).stream
        ((RandState.mk (fun n => 1000 + n) 0).pos + i) < 2 ^ 31) ∧
      (fun _ => 0x22D8B85D : String → Nat) "93.184.216.34"
        = (fun _ => 0x22D8B85D : String → Nat) "93.184.216.34" ∧
      (∀ i, i < 4 → (RandState.mk (fun n => 995 + n) 5).stream
          ((RandState.mk (fun n => 995 + n) 5).pos + i)
        = (RandState.mk (fun n => 1000 + n) 0).stream
          ((RandState.mk (fun n => 1000 + n) 0).pos + i))) ∧
    ∃ packet packet',
      (∃ g, main_build_packet (fun _ => 0x22D8B85D) (fun _ => 0) "93.184.216.34" 443
        (fun _ => 0) (RandState.mk (fun n => 1000 + n) 0) = some (packet, g)) ∧
      (∃ g', main_build_packet (fun _ => 0x22D8B85D) (fun _ => 0xAA) "93.184.216.34" 443
        (fun _ => 0xFF) (RandState.mk (fun n => 995 + n) 5) = some (packet', g')) ∧
      ∀ a, a < 40 → packet a = packet' a :=
  have h1 : ∀ i, i < 4 → (RandState.mk (fun n => 1000 + n) 0).stream
      ((RandState.mk (fun n => 1000 + n) 0).pos + i) < 2 ^ 31 := by decide
  have h2 : (fun _ => 0x22D8B85D : String → Nat) "93.184.216.34"
      = (fun _ => 0x22D8B85D : String → Nat) "93.184.216.34" := rfl
  have h3 : ∀ i, i < 4 → (RandState.mk (fun n => 995 + n) 5).stream
        ((RandState.mk (fun n => 995 + n) 5).pos + i)
      = (RandState.mk (fun n => 1000 + n) 0).stream
        ((RandState.mk (fun n => 1000 + n) 0).pos + i) := by decide
  ⟨⟨h1, h2, h3⟩,
    match packet_determined_by_draws (fun _ => 0x22D8B85D) (fun _ => 0x22D8B85D) (fun _ => 0)
      (fun _ => 0xAA) "93.184.216.34" "93.184.216.34" 443 (fun _ => 0) (fun _ => 0xFF)
      (RandState.mk (fun n => 1000 + n) 0) (RandState.mk (fun n => 995 + n) 5) h1 h2 h3 with
    | ⟨p, p', g, g', hb, hb', _, _, _, _, _, hall⟩ => ⟨p, p', ⟨g, hb⟩, ⟨g', hb'⟩, hall⟩⟩

/-! ## Argument validation: claim C15 -/

theorem tcp_header_dport (mem : Mem) (tcp_header p : Nat) (rng : RandState) (hp : p < 65536) :
    ntohs (load16 (network_initialize_tcp_header mem tcp_header p rng).1
      (tcp_header + off_tcp_dport)) = p := by
  have hlo := htons_low_byte p
  have hhi := htons_high_byte p
  have hdiv : p / 256 % 256 = p / 256 := Nat.mod_eq_of_lt (by omega)
  have hnt : ntohs (p / 256 + 256 * (p % 256)) = p := by
    have e : p / 256 + 256 * (p % 256) = htons p := by
      unfold htons
      omega
    rw [e, ntohs_htons p hp]
  simp [network_initialize_tcp_header, rand, store32, store16, store8, load16, load8,
    off_tcp_sport, off_tcp_dport, off_tcp_seq, off_tcp_offx2, off_tcp_flags, off_tcp_win,
    off_tcp_sum, off_tcp_urp, Nat.add_assoc, hlo, hhi, hdiv, hnt]

/-- Every packet the per-packet sequence of `main` constructs carries the port
it was given, reduced to 16 bits, in its destination-port field. -/
theorem main_build_packet_dport (inet_addr : String → Nat) (pseudo_header : Mem)
    (target_ip : String) (target_port : Int) (packet_buffer : Mem) (rng : RandState) :
    ∃ packet g, main_build_packet inet_addr pseudo_header target_ip target_port
        packet_buffer rng = some (packet, g) ∧
      ntohs (load16 packet (0 + sizeof_ipheader + off_tcp_dport))
        = (target_port % 2 ^ 16).toNat := by
  obtain ⟨hlen, -⟩ := main_packet_before_checksum inet_addr target_ip
    (target_port % 2 ^ 16).toNat packet_buffer rng
  have hc := tcp_checksum_unfold pseudo_header _ 0 20 hlen (by norm_num)
  have hport : (target_port % 2 ^ 16).toNat < 65536 := by omega
  have hd := tcp_header_dport (memset packet_buffer 0 0 PACKET_LEN) (0 + sizeof_ipheader)
    (target_port % 2 ^ 16).toNat rng hport
  refine ⟨_, _, main_build_packet_eq _ _ _ _ _ _ _ hc, ?_⟩
  rw [load16_store16_other _ _ _ _
      (by simp only [sizeof_ipheader, off_tcp_sum, off_tcp_dport]; omega),
    load16_ip_header_frame _ _ _ _ _ _ (by simp only [sizeof_ipheader, off_tcp_dport]; omega)]
  exact hd

theorem main_loop_dport (inet_addr : String → Nat) (target_ip : String) (target_port : Int) :
    ∀ (steps : List LoopStep) (packet_buffer : Mem) (rng : RandState) (packet : Mem),
      packet ∈ (main_loop inet_addr target_ip target_port steps packet_buffer rng).built →
      ntohs (load16 packet (0 + sizeof_ipheader + off_tcp_dport))
        = (target_port % 2 ^ 16).toNat := by
  intro steps
  induction steps with
  | nil =>
    intro packet_buffer rng packet hmem
    simp [main_loop] at hmem
  | cons step steps ih =>
    intro packet_buffer rng packet hmem
    obtain ⟨pkt, g, hb, hport⟩ := main_build_packet_dport inet_addr step.pseudo_header
      target_ip target_port packet_buffer rng
    rw [main_loop, hb] at hmem
    simp only [Option.map_some', Option.getD_some] at hmem
    cases hs : (network_send_raw_ip_packet step.kernel pkt 0).2 with
    | returned =>
      rw [hs] at hmem
      simp only [List.mem_cons] at hmem
      rcases hmem with h | h
      · rw [h]
        exact hport
      · exact ih pkt g packet h
    | exited status =>
      rw [hs] at hmem
      simp only [List.mem_singleton] at hmem
      rw [hmem]
      exact hport

/-- The statements of `main` before the loop, as one test. -/
theorem main_arguments_eq (atoi : String → Int) (inet_pton : String → Int) (argc : Int)
    (argv : Nat → String) :
    main_arguments atoi inet_pton argc argv
      = if (argc < 3 ∨ argc > 4) ∨ (argc = 4 ∧ atoi (argv 3) < 0) ∨
            validate_ip_address inet_pton (argv 1) = 0 ∨
            (atoi (argv 2) ≤ 0 ∨ atoi (argv 2) > 65535)
        then MainStart.exited ExitStatus.EXIT_FAILURE
        else MainStart.loop (argv 1) (atoi (argv 2)) (if argc = 4 then atoi (argv 3) else 0) := by
  unfold main_arguments display_usage
  simp only []
  by_cases h1 : argc < 3 ∨ argc > 4
  · rw [if_pos h1, if_pos (Or.inl h1)]
  · rw [if_neg h1]
    by_cases h4 : argc = 4
    · simp only [h4, if_true, true_and]
      by_cases h2 : atoi (argv 3) < 0
      · simp [h2]
      · by_cases h3 : validate_ip_address inet_pton (argv 1) = 0
        · simp [h2, h3]
        · by_cases h5 : atoi (argv 2) ≤ 0 ∨ atoi (argv 2) > 65535
          · simp [h2, h3, h5]
          · simp [h2, h3, h5]
    · simp only [h4, if_false, false_and]
      by_cases h3 : validate_ip_address inet_pton (argv 1) = 0
      · simp [h1, h3]
      · by_cases h5 : atoi (argv 2) ≤ 0 ∨ atoi (argv 2) > 65535
        · simp [h1, h3, h5]
        · simp [h1, h3, h5]

/-- C15 (argument validation).  `main` enters the transmission loop only with a
port in 1..65535 and, when given, a delay that is not negative; with any other
arguments it exits with `EXIT_FAILURE` having constructed no packet and made no
call of `network_send_raw_ip_packet`.  For a validated port the cast to 16 bits
is lossless, and the destination-port field of every packet `main` constructs
decodes to the parsed port. -/
theorem main_argument_validation (atoi : String → Int) (inet_pton : String → Int)
    (inet_addr : String → Nat) (argc : Int) (argv : Nat → String) (steps : List LoopStep)
    (packet_buffer : Mem) (rng : RandState) :
    (∀ target_ip target_port packet_delay_ms,
      main_arguments atoi inet_pton argc argv
        = MainStart.loop target_ip target_port packet_delay_ms →
      target_port = atoi (argv 2) ∧ 1 ≤ target_port ∧ target_port ≤ 65535 ∧
      0 ≤ packet_delay_ms ∧ (argc = 4 → packet_delay_ms = atoi (argv 3)) ∧
      ((target_port % 2 ^ 16).toNat : Int) = target_port) ∧
    (¬ (1 ≤ atoi (argv 2) ∧ atoi (argv 2) ≤ 65535) ∨ (argc = 4 ∧ atoi (argv 3) < 0) →
      main_arguments atoi inet_pton argc argv = MainStart.exited ExitStatus.EXIT_FAILURE ∧
      (main atoi inet_pton inet_addr argc argv steps packet_buffer rng).built = [] ∧
      (main atoi inet_pton inet_addr argc argv steps packet_buffer rng).calls = [] ∧
      (main atoi inet_pton inet_addr argc argv steps packet_buffer rng).status
        = some ExitStatus.EXIT_FAILURE) ∧
    (∀ packet, packet ∈ (main atoi inet_pton inet_addr argc argv steps packet_buffer rng).built →
      (ntohs (load16 packet (0 + sizeof_ipheader + off_tcp_dport)) : Int) = atoi (argv 2)) := by
  have heq := main_arguments_eq atoi inet_pton argc argv
  have hloop : ∀ target_ip target_port packet_delay_ms,
      main_arguments atoi inet_pton argc argv
        = MainStart.loop target_ip target_port packet_delay_ms →
      target_port = atoi (argv 2) ∧ 1 ≤ target_port ∧ target_port ≤ 65535 ∧
      0 ≤ packet_delay_ms ∧ (argc = 4 → packet_delay_ms = atoi (argv 3)) ∧
      ((target_port % 2 ^ 16).toNat : Int) = target_port := by
    intro target_ip target_port packet_delay_ms h
    rw [heq] at h
    split_ifs at h with hc h4
    · simp only [MainStart.loop.injEq] at h
      obtain ⟨-, hp, hdl⟩ := h
      subst hp hdl
      refine ⟨rfl, by omega, by omega, by omega, fun _ => rfl, by omega⟩
    · simp only [MainStart.loop.injEq] at h
      obtain ⟨-, hp, hdl⟩ := h
      subst hp hdl
      refine ⟨rfl, by omega, by omega, le_refl _, fun h4' => absurd h4' h4, by omega⟩
  refine ⟨hloop, ?_, ?_⟩
  · intro hbad
    have hex : main_arguments atoi inet_pton argc argv
        = MainStart.exited ExitStatus.EXIT_FAILURE := by
      rw [heq]
      apply if_pos
      rcases hbad with hb | hb
      · right; right; right
        omega
      · right; left
        exact hb
    refine ⟨hex, ?_, ?_, ?_⟩ <;> simp [main, hex]
  · intro packet hmem
    cases hm : main_arguments atoi inet_pton argc argv with
    | exited status =>
      simp [main, hm] at hmem
    | loop target_ip target_port packet_delay_ms =>
      obtain ⟨hp, -, -, -, -, hcast⟩ := hloop _ _ _ hm
      simp only [main, hm] at hmem
      rw [main_loop_dport inet_addr target_ip target_port steps packet_buffer rng packet hmem,
        hcast, hp]

/-- Instance of C15: port 0 is refused before any packet is constructed. -/
theorem main_argument_validation_witness :
    (¬ ((1 : Int) ≤ (fun _ => 0 : String → Int) ((fun _ => "0" : Nat → String) 2) ∧
        (fun _ => 0 : String → Int) ((fun _ => "0" : Nat → String) 2) ≤ 65535) ∨
      ((3 : Int) = 4 ∧ (fun _ => 0 : String → Int) ((fun _ => "0" : Nat → String) 3) < 0)) ∧
    (main (fun _ => 0) (fun _ => 1) (fun _ => 0) 3 (fun _ => "0")
        [LoopStep.mk (Kernel.mk 3 0 40) (fun _ => 0)] (fun _ => 0)
        (RandState.mk (fun n => n) 0)).status = some ExitStatus.EXIT_FAILURE :=
  have h : ¬ ((1 : Int) ≤ (fun _ => 0 : String → Int) ((fun _ => "0" : Nat → String) 2) ∧
        (fun _ => 0 : String → Int) ((fun _ => "0" : Nat → String) 2) ≤ 65535) ∨
      ((3 : Int) = 4 ∧ (fun _ => 0 : String → Int) ((fun _ => "0" : Nat → String) 3) < 0) :=
    Or.inl (by decide)
  ⟨h, ((main_argument_validation (fun _ => 0) (fun _ => 1) (fun _ => 0) 3 (fun _ => "0")
    [LoopStep.mk (Kernel.mk 3 0 40) (fun _ => 0)] (fun _ => 0)
    (RandState.mk (fun n => n) 0)).2.1 h).2.2.2⟩

/-! ## Acknowledgment number: claim C9 -/

/-- The initialisation of the TCP header leaves `tcp_ack` as it finds it. -/
theorem tcp_header_ack_frame (mem : Mem) (tcp_header dest_port : Nat) (rng : RandState) :
    load32 (network_initialize_tcp_header mem tcp_header dest_port rng).1
      (tcp_header + off_tcp_ack) = load32 mem (tcp_header + off_tcp_ack) := by
  simp [network_initialize_tcp_header, rand, store32, store16, store8, load32, load16, load8,
    off_tcp_sport, off_tcp_dport, off_tcp_seq, off_tcp_ack, off_tcp_offx2, off_tcp_flags,
    off_tcp_win, off_tcp_sum, off_tcp_urp, Nat.add_assoc]

/-- After the `memset` of `main` the bytes of `tcp_ack` are zero. -/
theorem memset_ack_zero (packet_buffer : Mem) :
    load32 (memset packet_buffer 0 0 PACKET_LEN) (0 + sizeof_ipheader + off_tcp_ack) = 0 := by
  simp [memset, load32, load16, load8, PACKET_LEN, sizeof_ipheader, off_tcp_ack]

/-- Every packet the per-packet sequence of `main` constructs has acknowledgment
number 0. -/
theorem main_build_packet_ack (inet_addr : String → Nat) (pseudo_header : Mem)
    (target_ip : String) (target_port : Int) (packet_buffer : Mem) (rng : RandState) :
    ∃ packet g, main_build_packet inet_addr pseudo_header target_ip target_port
        packet_buffer rng = some (packet, g) ∧
      load32 packet (0 + sizeof_ipheader + off_tcp_ack) = 0 := by
  obtain ⟨hlen, -⟩ := main_packet_before_checksum inet_addr target_ip
    (target_port % 2 ^ 16).toNat packet_buffer rng
  have hc := tcp_checksum_unfold pseudo_header _ 0 20 hlen (by norm_num)
  refine ⟨_, _, main_build_packet_eq _ _ _ _ _ _ _ hc, ?_⟩
  rw [load32_store16_other _ _ _ _
      (by simp only [sizeof_ipheader, off_tcp_sum, off_tcp_ack]; omega),
    load32_ip_header_frame _ _ _ _ _ _ (by simp only [sizeof_ipheader, off_tcp_ack]; omega),
    tcp_header_ack_frame]
  exact memset_ack_zero packet_buffer

/-- Every packet the transmission loop constructs has acknowledgment number 0. -/
theorem main_loop_ack (inet_addr : String → Nat) (target_ip : String) (target_port : Int) :
    ∀ (steps : List LoopStep) (packet_buffer : Mem) (rng : RandState) (packet : Mem),
      packet ∈ (main_loop inet_addr target_ip target_port steps packet_buffer rng).built →
      load32 packet (0 + sizeof_ipheader + off_tcp_ack) = 0 := by
  intro steps
  induction steps with
  | nil =>
    intro packet_buffer rng packet hmem
    simp [main_loop] at hmem
  | cons step steps ih =>
    intro packet_buffer rng packet hmem
    obtain ⟨pkt, g, hb, hack⟩ := main_build_packet_ack inet_addr step.pseudo_header
      target_ip target_port packet_buffer rng
    rw [main_loop, hb] at hmem
    simp only [Option.map_some', Option.getD_some] at hmem
    cases hs : (network_send_raw_ip_packet step.kernel pkt 0).2 with
    | returned =>
      rw [hs] at hmem
      simp only [List.mem_cons] at hmem
      rcases hmem with h | h
      · rw [h]
        exact hack
      · exact ih pkt g packet h
    | exited status =>
      rw [hs] at hmem
      simp only [List.mem_singleton] at hmem
      rw [hmem]
      exact hack

/-- C9 (acknowledgment number).  For every destination port and every prior
content of the packet buffer, the TCP header that `network_initialize_tcp_header`
produces in `main` (the call follows the `memset` of the buffer) has
acknowledgment number 0: the function does not write `tcp_ack`, the field is left
at the 0 of the cleared buffer, directly after the call and in the completed
packet. -/
theorem tcp_header_ack_zero (inet_addr : String → Nat) (pseudo_header : Mem)
    (target_ip : String) (target_port : Int) (packet_buffer : Mem) (rng : RandState) :
    load32 (network_initialize_tcp_header (memset packet_buffer 0 0 PACKET_LEN)
        (0 + sizeof_ipheader) (target_port % 2 ^ 16).toNat rng).1
      (0 + sizeof_ipheader + off_tcp_ack) = 0 ∧
    ∃ packet g, main_build_packet inet_addr pseudo_header target_ip target_port
        packet_buffer rng = some (packet, g) ∧
      load32 packet (0 + sizeof_ipheader + off_tcp_ack) = 0 := by
  refine ⟨?_, main_build_packet_ack inet_addr pseudo_header target_ip target_port
    packet_buffer rng⟩
  rw [tcp_header_ack_frame]
  exact memset_ack_zero packet_buffer

end SynFlood
